import Mathlib

/-! Verification development for the SDL tutorial programs.

Two programs are embedded:

* `36_multiple_windows/code/main.cpp` (namespace `MultiWindow`): the collision
  helpers, the timer, the dot and the window wrapper together with the main loop;
* `03_Event_Driven_Programming/code/main.cpp` (namespace `EventDriven`): the
  single window demo, as the trace of SDL calls it makes.

Machine integers are mathematical integers with explicit wrap-around: `int` results
are reduced by `wrapInt`, `Uint32` results by `% 2 ^ 32`.  Pointers are natural
numbers, `NULL` being `0`.  SDL calls that the code makes are recorded in a trace.
-/

namespace MultiWindow

/-! ## Machine integers -/

/-- Two-complement reduction of a mathematical integer to a 32 bit `int`. -/
def wrapInt (x : Int) : Int := (x + 2147483648) % 4294967296 - 2147483648

/-- The value is representable as a 32 bit `int`. -/
def InRange (x : Int) : Prop := -2147483648 ≤ x ∧ x ≤ 2147483647

instance (x : Int) : Decidable (InRange x) := by unfold InRange; infer_instance

/-- The `int` addition. -/
def addInt (a b : Int) : Int := wrapInt (a + b)

/-- The `int` subtraction. -/
def subInt (a b : Int) : Int := wrapInt (a - b)

/-- The `int` multiplication. -/
def mulInt (a b : Int) : Int := wrapInt (a * b)

/-- Conversion of an `int` to `Uint32`, as done by the usual arithmetic conversions. -/
def toUint32 (x : Int) : Nat := (x % 4294967296).toNat

/-- The `Uint32` subtraction. -/
def subUint32 (a b : Nat) : Nat := (((a : Int) - (b : Int)) % 4294967296).toNat

/-- A pointer value; `NULL` is `0`. -/
abbrev Ptr := Nat

/-- The null pointer. -/
def NULL : Ptr := 0

/-! ## Constants -/

def SCREEN_WIDTH : Int := 640
def SCREEN_HEIGHT : Int := 480
def LEVEL_WIDTH : Int := SCREEN_WIDTH
def LEVEL_HEIGHT : Int := SCREEN_HEIGHT
def TOTAL_WINDOWS : Nat := 3

/-! ## Collision helpers -/

/-- A circle structure. -/
structure Circle where
  x : Int
  y : Int
  r : Int
  deriving DecidableEq, Repr

/-- The rectangle of the library: `x`, `y`, `w`, `h` are `int`. -/
structure SDL_Rect where
  x : Int
  y : Int
  w : Int
  h : Int
  deriving DecidableEq, Repr

/-- Calculates distance squared between two points.  The sum is computed in `int` and
then converted to `double`; every `int` is exactly representable as a `double`, so the
returned `double` is identified with the integer it holds. -/
def distanceSquared (x1 y1 x2 y2 : Int) : Int :=
  let deltaX := subInt x2 x1
  let deltaY := subInt y2 y1
  addInt (mulInt deltaX deltaX) (mulInt deltaY deltaY)

/-- Circle/Circle collision detector.  The comparison is made in `double`, the `int`
right hand side being converted exactly. -/
def checkCollision (a b : Circle) : Bool :=
  let totalRadiusSquared := addInt a.r b.r
  let totalRadiusSquared := mulInt totalRadiusSquared totalRadiusSquared
  if distanceSquared a.x a.y b.x b.y < totalRadiusSquared then
    true
  else
    false

/-- The x offset of the closest point on the collision box, as `checkCollision`
computes it. -/
def closestX (a : Circle) (b : SDL_Rect) : Int :=
  if a.x < b.x then b.x
  else if a.x > addInt b.x b.w then addInt b.x b.w
  else a.x

/-- The y offset of the closest point on the collision box, as `checkCollision`
computes it. -/
def closestY (a : Circle) (b : SDL_Rect) : Int :=
  if a.y < b.y then b.y
  else if a.y > addInt b.y b.h then addInt b.y b.h
  else a.y

/-- Circle/Box collision detector. -/
def checkCollisionBox (a : Circle) (b : SDL_Rect) : Bool :=
  let cX := closestX a b
  let cY := closestY a b
  if distanceSquared a.x a.y cX cY < mulInt a.r a.r then
    true
  else
    false

/-! ## The application time based timer -/

/-- The timer: tick fields are `Uint32`. -/
structure LTimer where
  mStartTicks : Nat
  mPausedTicks : Nat
  mPaused : Bool
  mStarted : Bool
  deriving DecidableEq, Repr

namespace LTimer

/-- The constructor. -/
def new : LTimer :=
  { mStartTicks := 0, mPausedTicks := 0, mPaused := false, mStarted := false }

/-- Starts the timer; `ticks` is what `SDL_GetTicks()` returns. -/
def start (_t : LTimer) (ticks : Nat) : LTimer :=
  { mStarted := true, mPaused := false, mStartTicks := ticks, mPausedTicks := 0 }

/-- Stops the timer. -/
def stop (_t : LTimer) : LTimer :=
  { mStarted := false, mPaused := false, mStartTicks := 0, mPausedTicks := 0 }

/-- Pauses the timer; `ticks` is what `SDL_GetTicks()` returns. -/
def pause (t : LTimer) (ticks : Nat) : LTimer :=
  if t.mStarted && !t.mPaused then
    { t with mPaused := true, mPausedTicks := subUint32 ticks t.mStartTicks, mStartTicks := 0 }
  else
    t

/-- Resumes the timer; `ticks` is what `SDL_GetTicks()` returns. -/
def unpause (t : LTimer) (ticks : Nat) : LTimer :=
  if t.mStarted && t.mPaused then
    { t with mPaused := false, mStartTicks := subUint32 ticks t.mPausedTicks,
             mPausedTicks := 0 }
  else
    t

/-- Gets the time of the timer; `ticks` is what `SDL_GetTicks()` returns. -/
def getTicks (t : LTimer) (ticks : Nat) : Nat :=
  if t.mStarted then
    if t.mPaused then t.mPausedTicks else subUint32 ticks t.mStartTicks
  else
    0

def isStarted (t : LTimer) : Bool := t.mStarted

def isPaused (t : LTimer) : Bool := t.mPaused && t.mStarted

end LTimer

/-- The clock actions of the timer, with what `SDL_GetTicks()` returns where it is
read. -/
inductive LTimerOp where
  | start (ticks : Nat)
  | stop
  | pause (ticks : Nat)
  | unpause (ticks : Nat)
  deriving DecidableEq, Repr

namespace LTimer

/-- Performs one clock action. -/
def perform (t : LTimer) : LTimerOp → LTimer
  | LTimerOp.start ticks => t.start ticks
  | LTimerOp.stop => t.stop
  | LTimerOp.pause ticks => t.pause ticks
  | LTimerOp.unpause ticks => t.unpause ticks

/-- Performs a sequence of clock actions, in order. -/
def performAll (t : LTimer) (ops : List LTimerOp) : LTimer :=
  ops.foldl perform t

/-- A timer that is not started has its pause flag and both tick fields cleared. -/
def StoppedClear (t : LTimer) : Prop :=
  t.mStarted = false → t.mPaused = false ∧ t.mStartTicks = 0 ∧ t.mPausedTicks = 0

end LTimer

/-! ## Events of the library -/

/-- The event types that the code distinguishes; `other` is every remaining type. -/
inductive EventType where
  | SDL_QUIT
  | SDL_WINDOWEVENT
  | SDL_KEYDOWN
  | SDL_KEYUP
  | other
  deriving DecidableEq, Repr

/-- The window event identifiers that the code distinguishes; `other` is every
remaining identifier (moved, resized, take focus, hit test, none). -/
inductive WindowEventID where
  | SDL_WINDOWEVENT_SHOWN
  | SDL_WINDOWEVENT_HIDDEN
  | SDL_WINDOWEVENT_SIZE_CHANGED
  | SDL_WINDOWEVENT_EXPOSED
  | SDL_WINDOWEVENT_ENTER
  | SDL_WINDOWEVENT_LEAVE
  | SDL_WINDOWEVENT_FOCUS_GAINED
  | SDL_WINDOWEVENT_FOCUS_LOST
  | SDL_WINDOWEVENT_MINIMIZED
  | SDL_WINDOWEVENT_MAXIMIZED
  | SDL_WINDOWEVENT_RESTORED
  | SDL_WINDOWEVENT_CLOSE
  | other
  deriving DecidableEq, Repr

/-- The key codes that the code distinguishes; `other` is every remaining key. -/
inductive Keycode where
  | SDLK_UP
  | SDLK_DOWN
  | SDLK_LEFT
  | SDLK_RIGHT
  | SDLK_RETURN
  | SDLK_1
  | SDLK_2
  | SDLK_3
  | other
  deriving DecidableEq, Repr

/-- The `window` member of an event: `windowID` is `Uint32`, `data1` and `data2` are
`Sint32`. -/
structure SDL_WindowEvent where
  windowID : Nat
  event : WindowEventID
  data1 : Int
  data2 : Int
  deriving DecidableEq, Repr

/-- The `keysym` member of a keyboard event. -/
structure SDL_Keysym where
  sym : Keycode
  deriving DecidableEq, Repr

/-- The `key` member of an event; `repeat_` is the `repeat` field (`Uint8`). -/
structure SDL_KeyboardEvent where
  repeat_ : Nat
  keysym : SDL_Keysym
  deriving DecidableEq, Repr

/-- The event union.  The code reads the `window` member only when `type` is
`SDL_WINDOWEVENT` and the `key` member only when `type` is `SDL_KEYDOWN` or `SDL_KEYUP`,
so the members are kept side by side. -/
structure SDL_Event where
  type : EventType
  window : SDL_WindowEvent
  key : SDL_KeyboardEvent
  deriving DecidableEq, Repr

/-! ## The dot -/

/-- The dot that will move around on the screen. -/
structure Dot where
  mPosX : Int
  mPosY : Int
  mVelX : Int
  mVelY : Int
  mCollider : Circle
  deriving DecidableEq, Repr

namespace Dot

def DOT_WIDTH : Int := 20
def DOT_HEIGHT : Int := 20

/-- Maximum axis velocity of the dot. -/
def DOT_VEL : Int := 10

/-- The constructor; `mCollider` is not assigned by it and is taken as given. -/
def new (mCollider : Circle) : Dot :=
  { mPosX := 0, mPosY := 0, mVelX := 0, mVelY := 0, mCollider := mCollider }

/-- Takes key presses and adjusts the velocity of the dot. -/
def handleEvent (d : Dot) (e : SDL_Event) : Dot :=
  if e.type = EventType.SDL_KEYDOWN && e.key.repeat_ = 0 then
    match e.key.keysym.sym with
    | Keycode.SDLK_UP => { d with mVelY := subInt d.mVelY DOT_VEL }
    | Keycode.SDLK_DOWN => { d with mVelY := addInt d.mVelY DOT_VEL }
    | Keycode.SDLK_LEFT => { d with mVelX := subInt d.mVelX DOT_VEL }
    | Keycode.SDLK_RIGHT => { d with mVelX := addInt d.mVelX DOT_VEL }
    | _ => d
  else if e.type = EventType.SDL_KEYUP && e.key.repeat_ = 0 then
    match e.key.keysym.sym with
    | Keycode.SDLK_UP => { d with mVelY := addInt d.mVelY DOT_VEL }
    | Keycode.SDLK_DOWN => { d with mVelY := subInt d.mVelY DOT_VEL }
    | Keycode.SDLK_LEFT => { d with mVelX := addInt d.mVelX DOT_VEL }
    | Keycode.SDLK_RIGHT => { d with mVelX := subInt d.mVelX DOT_VEL }
    | _ => d
  else
    d

/-- Feeds a sequence of events to `handleEvent`, in order. -/
def handleEvents (d : Dot) (es : List SDL_Event) : Dot :=
  es.foldl handleEvent d

/-- Moves the dot. -/
def move (d : Dot) : Dot :=
  let mPosX := addInt d.mPosX d.mVelX
  let mPosX :=
    if mPosX < 0 || addInt mPosX DOT_WIDTH > LEVEL_WIDTH then subInt mPosX d.mVelX
    else mPosX
  let mPosY := addInt d.mPosY d.mVelY
  let mPosY :=
    if mPosY < 0 || addInt mPosY DOT_HEIGHT > LEVEL_HEIGHT then subInt mPosY d.mVelY
    else mPosY
  { d with mPosX := mPosX, mPosY := mPosY }

end Dot

/-! ## Arrow keys that are held down -/

/-- Which of the four arrow keys are held down. -/
structure ArrowKeys where
  up : Bool
  down : Bool
  left : Bool
  right : Bool
  deriving DecidableEq, Repr

namespace ArrowKeys

/-- No arrow key is held down. -/
def released : ArrowKeys := { up := false, down := false, left := false, right := false }

/-- The keys held down after an event, when the event fits the keys held down before it:
a press that is not a repeat needs the key to be up, a release that is not a repeat needs
the key to be down; every other event fits and changes nothing. -/
def step (k : ArrowKeys) (e : SDL_Event) : Option ArrowKeys :=
  if e.type = EventType.SDL_KEYDOWN ∧ e.key.repeat_ = 0 then
    match e.key.keysym.sym with
    | Keycode.SDLK_UP => if k.up then none else some { k with up := true }
    | Keycode.SDLK_DOWN => if k.down then none else some { k with down := true }
    | Keycode.SDLK_LEFT => if k.left then none else some { k with left := true }
    | Keycode.SDLK_RIGHT => if k.right then none else some { k with right := true }
    | _ => some k
  else if e.type = EventType.SDL_KEYUP ∧ e.key.repeat_ = 0 then
    match e.key.keysym.sym with
    | Keycode.SDLK_UP => if k.up then some { k with up := false } else none
    | Keycode.SDLK_DOWN => if k.down then some { k with down := false } else none
    | Keycode.SDLK_LEFT => if k.left then some { k with left := false } else none
    | Keycode.SDLK_RIGHT => if k.right then some { k with right := false } else none
    | _ => some k
  else
    some k

/-- The keys held down after a sequence of events, when every event fits. -/
def run : ArrowKeys → List SDL_Event → Option ArrowKeys
  | k, [] => some k
  | k, e :: es =>
    match k.step e with
    | some k2 => run k2 es
    | none => none

/-- The horizontal velocity that the keys held down stand for. -/
def velX (k : ArrowKeys) : Int :=
  (if k.right then Dot.DOT_VEL else 0) - (if k.left then Dot.DOT_VEL else 0)

/-- The vertical velocity that the keys held down stand for. -/
def velY (k : ArrowKeys) : Int :=
  (if k.down then Dot.DOT_VEL else 0) - (if k.up then Dot.DOT_VEL else 0)

end ArrowKeys

/-- For each arrow key the presses and releases that are not repeats alternate in the
sequence, beginning with a press. -/
def KeysAlternate (es : List SDL_Event) : Prop :=
  (ArrowKeys.released.run es).isSome = true

instance (es : List SDL_Event) : Decidable (KeysAlternate es) := by
  unfold KeysAlternate; infer_instance

/-- A keyboard event of the given type; the unused `window` member is zero. -/
def keyboardEvent (type : EventType) (sym : Keycode) (repeat_ : Nat) : SDL_Event :=
  { type := type, window := ⟨0, WindowEventID.other, 0, 0⟩, key := ⟨repeat_, ⟨sym⟩⟩ }

/-- A window event; the unused `key` member is zero. -/
def windowEvent (windowID : Nat) (event : WindowEventID) (data1 data2 : Int) : SDL_Event :=
  { type := EventType.SDL_WINDOWEVENT, window := ⟨windowID, event, data1, data2⟩,
    key := ⟨0, ⟨Keycode.other⟩⟩ }

/-- An event that carries only its type. -/
def plainEvent (type : EventType) : SDL_Event :=
  { type := type, window := ⟨0, WindowEventID.other, 0, 0⟩, key := ⟨0, ⟨Keycode.other⟩⟩ }

/-! ## The window wrapper -/

/-- The library calls that the window wrapper and the main loop make, with the
arguments that matter. -/
inductive SDLCall where
  | SDL_CreateWindow
  | SDL_CreateRenderer (window : Ptr)
  | SDL_DestroyWindow (window : Ptr)
  | SDL_GetWindowID (window : Ptr)
  | SDL_SetRenderDrawColor (renderer : Ptr)
  | SDL_RenderClear (renderer : Ptr)
  | SDL_RenderPresent (renderer : Ptr)
  | SDL_HideWindow (window : Ptr)
  | SDL_ShowWindow (window : Ptr)
  | SDL_RaiseWindow (window : Ptr)
  | SDL_SetWindowTitle (window : Ptr) (title : String)
  | SDL_SetWindowFullscreen (window : Ptr) (flags : Bool)
  | SDL_PollEvent
  deriving DecidableEq, Repr

/-- The window wrapper. -/
structure LWindow where
  mWindow : Ptr
  mRenderer : Ptr
  mWindowID : Int
  mWidth : Int
  mHeight : Int
  mMouseFocus : Bool
  mKeyboardFocus : Bool
  mFullScreen : Bool
  mMinimized : Bool
  mShown : Bool
  deriving DecidableEq, Repr

namespace LWindow

/-- The constructor applied to zero-initialised static storage, as for the global
`gWindows`: `mRenderer`, `mWindowID` and `mShown`, which the constructor does not assign,
keep their zero. -/
def new : LWindow :=
  { mWindow := NULL, mRenderer := NULL, mWindowID := 0, mWidth := 0, mHeight := 0,
    mMouseFocus := false, mKeyboardFocus := false, mFullScreen := false,
    mMinimized := false, mShown := false }

/-- Creates the window.  `createWindow`, `createRenderer` and `windowID` are what
`SDL_CreateWindow`, `SDL_CreateRenderer` and `SDL_GetWindowID` return.  The result is the
new state, the returned flag and the calls made. -/
def init (w : LWindow) (createWindow createRenderer : Ptr) (windowID : Nat) :
    LWindow × Bool × List SDLCall :=
  let w := { w with mWindow := createWindow }
  if w.mWindow ≠ NULL then
    let w := { w with mMouseFocus := true, mKeyboardFocus := true, mWidth := SCREEN_WIDTH,
                      mHeight := SCREEN_HEIGHT }
    let w := { w with mRenderer := createRenderer }
    if w.mRenderer = NULL then
      let calls := [SDLCall.SDL_CreateWindow, SDLCall.SDL_CreateRenderer w.mWindow,
        SDLCall.SDL_DestroyWindow w.mWindow]
      let w := { w with mWindow := NULL }
      (w, decide (w.mWindow ≠ NULL) && decide (w.mRenderer ≠ NULL), calls)
    else
      let calls := [SDLCall.SDL_CreateWindow, SDLCall.SDL_CreateRenderer w.mWindow,
        SDLCall.SDL_SetRenderDrawColor w.mRenderer, SDLCall.SDL_GetWindowID w.mWindow]
      let w := { w with mWindowID := wrapInt windowID }
      let w := { w with mShown := true }
      (w, decide (w.mWindow ≠ NULL) && decide (w.mRenderer ≠ NULL), calls)
  else
    (w, decide (w.mWindow ≠ NULL) && decide (w.mRenderer ≠ NULL), [SDLCall.SDL_CreateWindow])

/-- The caption that `handleEvent` builds from the focus flags. -/
def caption (w : LWindow) : String :=
  "SDL Tutorial - MouseFocus:" ++ (if w.mMouseFocus then "On" else "Off") ++
    " KeyboardFocus:" ++ (if w.mKeyboardFocus then "On" else "Off")

/-- The `switch` of `handleEvent` on the window event identifier: the new state, the
calls made and the caption update flag.  `gRenderer` is the global renderer. -/
def handleWindowEvent (w : LWindow) (gRenderer : Ptr) (e : SDL_Event) :
    LWindow × List SDLCall × Bool :=
  match e.window.event with
  | WindowEventID.SDL_WINDOWEVENT_SHOWN => ({ w with mShown := true }, [], false)
  | WindowEventID.SDL_WINDOWEVENT_HIDDEN => ({ w with mShown := false }, [], false)
  | WindowEventID.SDL_WINDOWEVENT_SIZE_CHANGED =>
    ({ w with mWidth := e.window.data1, mHeight := e.window.data2 },
      [SDLCall.SDL_RenderPresent gRenderer], false)
  | WindowEventID.SDL_WINDOWEVENT_EXPOSED => (w, [SDLCall.SDL_RenderPresent gRenderer], false)
  | WindowEventID.SDL_WINDOWEVENT_ENTER => ({ w with mMouseFocus := true }, [], true)
  | WindowEventID.SDL_WINDOWEVENT_LEAVE => ({ w with mMouseFocus := false }, [], true)
  | WindowEventID.SDL_WINDOWEVENT_FOCUS_GAINED =>
    ({ w with mKeyboardFocus := true }, [], true)
  | WindowEventID.SDL_WINDOWEVENT_FOCUS_LOST =>
    ({ w with mKeyboardFocus := false }, [], true)
  | WindowEventID.SDL_WINDOWEVENT_MINIMIZED => ({ w with mMinimized := true }, [], false)
  | WindowEventID.SDL_WINDOWEVENT_MAXIMIZED => ({ w with mMinimized := false }, [], false)
  | WindowEventID.SDL_WINDOWEVENT_RESTORED => ({ w with mMinimized := false }, [], false)
  | WindowEventID.SDL_WINDOWEVENT_CLOSE => (w, [SDLCall.SDL_HideWindow w.mWindow], false)
  | WindowEventID.other => (w, [], false)

/-- Handles window events: the new state and the calls made.  The comparison of the
`Uint32` `windowID` with the `int` `mWindowID` converts the latter to `Uint32`. -/
def handleEvent (w : LWindow) (gRenderer : Ptr) (e : SDL_Event) : LWindow × List SDLCall :=
  if e.type = EventType.SDL_WINDOWEVENT && e.window.windowID = toUint32 w.mWindowID then
    let r := handleWindowEvent w gRenderer e
    if r.2.2 then
      (r.1, r.2.1 ++ [SDLCall.SDL_SetWindowTitle r.1.mWindow (caption r.1)])
    else
      (r.1, r.2.1)
  else if e.type = EventType.SDL_KEYDOWN && e.key.keysym.sym = Keycode.SDLK_RETURN then
    if w.mFullScreen then
      ({ w with mFullScreen := false }, [SDLCall.SDL_SetWindowFullscreen w.mWindow false])
    else
      ({ w with mFullScreen := true, mMinimized := false },
        [SDLCall.SDL_SetWindowFullscreen w.mWindow true])
  else
    (w, [])

/-- Feeds a sequence of events to `handleEvent`, in order, keeping the state. -/
def handleEvents (w : LWindow) (gRenderer : Ptr) (es : List SDL_Event) : LWindow :=
  es.foldl (fun w e => (handleEvent w gRenderer e).1) w

def getWidth (w : LWindow) : Int := w.mWidth
def getHeight (w : LWindow) : Int := w.mHeight
def hasMouseFocus (w : LWindow) : Bool := w.mMouseFocus
def hasKeyboardFocus (w : LWindow) : Bool := w.mKeyboardFocus
def isMinimized (w : LWindow) : Bool := w.mMinimized
def isShown (w : LWindow) : Bool := w.mShown

/-- Focuses on the window: the calls made. -/
def focus (w : LWindow) : List SDLCall :=
  (if !w.mShown then [SDLCall.SDL_ShowWindow w.mWindow] else []) ++
    [SDLCall.SDL_RaiseWindow w.mWindow]

/-- Shows the contents of the window: the calls made. -/
def render (w : LWindow) : List SDLCall :=
  if !w.mMinimized then
    [SDLCall.SDL_SetRenderDrawColor w.mRenderer, SDLCall.SDL_RenderClear w.mRenderer,
      SDLCall.SDL_RenderPresent w.mRenderer]
  else
    []

end LWindow

/-! ## Focus tracking, as the specification words it -/

/-- What an event says about the mouse focus of the window with identifier `id`:
`some true` for an `SDL_WINDOWEVENT_ENTER` addressed to it, `some false` for an
`SDL_WINDOWEVENT_LEAVE` addressed to it, `none` for every other event. -/
def mouseFocusEvent (id : Nat) (e : SDL_Event) : Option Bool :=
  if e.type = EventType.SDL_WINDOWEVENT ∧ e.window.windowID = id then
    match e.window.event with
    | WindowEventID.SDL_WINDOWEVENT_ENTER => some true
    | WindowEventID.SDL_WINDOWEVENT_LEAVE => some false
    | _ => none
  else
    none

/-- What an event says about the keyboard focus of the window with identifier `id`:
`some true` for an `SDL_WINDOWEVENT_FOCUS_GAINED` addressed to it, `some false` for an
`SDL_WINDOWEVENT_FOCUS_LOST` addressed to it, `none` for every other event. -/
def keyboardFocusEvent (id : Nat) (e : SDL_Event) : Option Bool :=
  if e.type = EventType.SDL_WINDOWEVENT ∧ e.window.windowID = id then
    match e.window.event with
    | WindowEventID.SDL_WINDOWEVENT_FOCUS_GAINED => some true
    | WindowEventID.SDL_WINDOWEVENT_FOCUS_LOST => some false
    | _ => none
  else
    none

/-- The flag that the last focus event of the sequence asks for, and the initial value
when the sequence has no focus event. -/
def lastFocus (focusEvent : SDL_Event → Option Bool) (initial : Bool)
    (es : List SDL_Event) : Bool :=
  ((es.filterMap focusEvent).getLast?).getD initial

/-! ## The main loop -/

/-- The state of `wmain` inside the main loop: the quit flag, the global array of
windows and the calls made so far. -/
structure MainState where
  quit : Bool
  gWindows : Fin TOTAL_WINDOWS → LWindow
  trace : List SDLCall

/-- The loop `for(int i = 0; i < TOTAL_WINDOWS; ++i) gWindows[i].handleEvent(e)`. -/
def handleEventAll (gRenderer : Ptr) (e : SDL_Event) (s : MainState) : MainState :=
  (List.finRange TOTAL_WINDOWS).foldl
    (fun s i =>
      let r := (s.gWindows i).handleEvent gRenderer e
      { s with gWindows := Function.update s.gWindows i r.1, trace := s.trace ++ r.2 })
    s

/-- The `switch` that pulls up a window on the keys 1, 2 and 3. -/
def pullUpWindow (e : SDL_Event) (s : MainState) : MainState :=
  if e.type = EventType.SDL_KEYDOWN then
    match e.key.keysym.sym with
    | Keycode.SDLK_1 => { s with trace := s.trace ++ (s.gWindows ⟨0, by decide⟩).focus }
    | Keycode.SDLK_2 => { s with trace := s.trace ++ (s.gWindows ⟨1, by decide⟩).focus }
    | Keycode.SDLK_3 => { s with trace := s.trace ++ (s.gWindows ⟨2, by decide⟩).focus }
    | _ => s
  else
    s

/-- The body of the loop `while(SDL_PollEvent(&e) != 0)` for one polled event. -/
def handlePolled (gRenderer : Ptr) (s : MainState) (e : SDL_Event) : MainState :=
  let s := { s with trace := s.trace ++ [SDLCall.SDL_PollEvent] }
  let s := if e.type = EventType.SDL_QUIT then { s with quit := true } else s
  let s := handleEventAll gRenderer e s
  pullUpWindow e s

/-- The loop `while(SDL_PollEvent(&e) != 0)`: `es` are the events that the queue hands
out before it is empty; the last poll returns `0`. -/
def pollEvents (gRenderer : Ptr) (es : List SDL_Event) (s : MainState) : MainState :=
  let s := es.foldl (handlePolled gRenderer) s
  { s with trace := s.trace ++ [SDLCall.SDL_PollEvent] }

/-- The loop `for(int i = 0; i < TOTAL_WINDOWS; ++i) gWindows[i].render()`. -/
def renderAll (s : MainState) : MainState :=
  (List.finRange TOTAL_WINDOWS).foldl
    (fun s i => { s with trace := s.trace ++ (s.gWindows i).render }) s

/-- The scan `for(...) if(gWindows[i].isShown()) { allWindowsClosed = false; break; }`
over the indices that remain, starting from `allWindowsClosed = true`. -/
def scanWindows (gWindows : Fin TOTAL_WINDOWS → LWindow) :
    List (Fin TOTAL_WINDOWS) → Bool
  | [] => true
  | i :: rest => if (gWindows i).isShown then false else scanWindows gWindows rest

/-- The value of `allWindowsClosed` after the scan of the whole array. -/
def allWindowsClosed (gWindows : Fin TOTAL_WINDOWS → LWindow) : Bool :=
  scanWindows gWindows (List.finRange TOTAL_WINDOWS)

/-- One iteration of the loop `while(!quit)`, given the events polled in it. -/
def mainLoopIteration (gRenderer : Ptr) (es : List SDL_Event) (s : MainState) :
    MainState :=
  let s := pollEvents gRenderer es s
  let s := renderAll s
  if allWindowsClosed s.gWindows then { s with quit := true } else s

end MultiWindow

namespace EventDriven

/-! ## The single window demo, as a trace of library calls

Output on `stdout` is not part of the trace; the calls of `SDL_GetError` that are made to
build such output are. -/

/-- A pointer value; `NULL` is `0`. -/
abbrev Ptr := Nat

/-- The null pointer. -/
def NULL : Ptr := 0

/-- The event types that the code distinguishes; `other` is every remaining type. -/
inductive EventType where
  | SDL_QUIT
  | other
  deriving DecidableEq, Repr

/-- The library calls of the program, with the arguments that matter. -/
inductive SDLCall where
  | SDL_Init
  | SDL_GetError
  | SDL_CreateWindow
  | SDL_GetWindowSurface (window : Ptr)
  | SDL_LoadBMP (file : String)
  | SDL_PollEvent
  | SDL_BlitSurface (src dst : Ptr)
  | SDL_UpdateWindowSurface (window : Ptr)
  | SDL_FreeSurface (surface : Ptr)
  | SDL_DestroyWindow (window : Ptr)
  | SDL_Quit
  deriving DecidableEq, Repr

/-- What the library answers in one run: the return values of `SDL_Init`,
`SDL_CreateWindow`, `SDL_GetWindowSurface` and `SDL_LoadBMP`, and the successive answers of
`SDL_PollEvent` (`some e` for an event, `none` for an empty queue) as far as the run is
observed. -/
structure Env where
  sdlInit : Int
  createWindow : Ptr
  getWindowSurface : Ptr
  loadBMP : Ptr
  polls : List (Option EventType)

/-- The global variables of the program and the calls made so far. -/
structure Globals where
  gWindow : Ptr
  gScreenSurface : Ptr
  gHelloWorld : Ptr
  trace : List SDLCall
  deriving DecidableEq, Repr

/-- Starts up SDL and creates the window: the new globals and the returned flag. -/
def init (env : Env) (g : Globals) : Globals × Bool :=
  let g := { g with trace := g.trace ++ [SDLCall.SDL_Init] }
  if env.sdlInit < 0 then
    ({ g with trace := g.trace ++ [SDLCall.SDL_GetError] }, false)
  else
    let g := { g with gWindow := env.createWindow,
                      trace := g.trace ++ [SDLCall.SDL_CreateWindow] }
    if g.gWindow = NULL then
      (g, false)
    else
      ({ g with gScreenSurface := env.getWindowSurface,
                trace := g.trace ++ [SDLCall.SDL_GetWindowSurface g.gWindow] }, true)

/-- Loads the media: the new globals and the returned flag. -/
def loadMedia (env : Env) (g : Globals) : Globals × Bool :=
  let g := { g with gHelloWorld := env.loadBMP,
                    trace := g.trace ++ [SDLCall.SDL_LoadBMP "died_splash.bmp"] }
  if g.gHelloWorld = NULL then
    ({ g with trace := g.trace ++ [SDLCall.SDL_GetError] }, false)
  else
    (g, true)

/-- Frees the media and shuts down SDL. -/
def close (g : Globals) : Globals :=
  { g with gHelloWorld := NULL, gWindow := NULL,
           trace := g.trace ++ [SDLCall.SDL_FreeSurface g.gHelloWorld,
             SDLCall.SDL_DestroyWindow g.gWindow, SDLCall.SDL_Quit] }

/-- The loop `while(!quit)` with its inner loop `while(SDL_PollEvent(&e) != 0)`, run on
the successive answers of `SDL_PollEvent`.  An event sets `quit` when it is `SDL_QUIT`; an
empty queue ends the inner loop, the image is blitted and the surface updated, and the
outer condition is tested.  The flag returned tells whether the loop has ended within
the observed answers. -/
def eventLoop : List (Option EventType) → Bool → Globals → Globals × Bool
  | [], _, g => (g, false)
  | some e :: rest, quit, g =>
    eventLoop rest (if e = EventType.SDL_QUIT then true else quit)
      { g with trace := g.trace ++ [SDLCall.SDL_PollEvent] }
  | none :: rest, quit, g =>
    let g := { g with trace := g.trace ++ [SDLCall.SDL_PollEvent,
      SDLCall.SDL_BlitSurface g.gHelloWorld g.gScreenSurface,
      SDLCall.SDL_UpdateWindowSurface g.gWindow] }
    if quit then (g, true) else eventLoop rest quit g

/-- The globals before `wmain` runs. -/
def initialGlobals : Globals :=
  { gWindow := NULL, gScreenSurface := NULL, gHelloWorld := NULL, trace := [] }

/-- The program: the final globals, with the trace of calls, and whether the program has
returned within the observed answers of `SDL_PollEvent`. -/
def wmain (env : Env) : Globals × Bool :=
  let g := (loadMedia env initialGlobals).1
  let r := init env g
  if !r.2 then
    (close r.1, true)
  else
    let l := eventLoop env.polls false r.1
    if l.2 then (close l.1, true) else l

/-! ## The order of the calls -/

/-- The four stages of the specification: initialise, load, loop, free. -/
inductive Stage where
  | initialise
  | load
  | loop
  | free
  deriving DecidableEq, Repr

/-- The stage that a call belongs to; `SDL_GetError` belongs to none. -/
def stageOf : SDLCall → Option Stage
  | SDLCall.SDL_Init => some Stage.initialise
  | SDLCall.SDL_CreateWindow => some Stage.initialise
  | SDLCall.SDL_GetWindowSurface _ => some Stage.initialise
  | SDLCall.SDL_LoadBMP _ => some Stage.load
  | SDLCall.SDL_PollEvent => some Stage.loop
  | SDLCall.SDL_BlitSurface _ _ => some Stage.loop
  | SDLCall.SDL_UpdateWindowSurface _ => some Stage.loop
  | SDLCall.SDL_FreeSurface _ => some Stage.free
  | SDLCall.SDL_DestroyWindow _ => some Stage.free
  | SDLCall.SDL_Quit => some Stage.free
  | SDLCall.SDL_GetError => none

/-- The rank of the stages in the order that the specification gives:
initialise, load, loop, free. -/
def specRank : Stage → Nat
  | Stage.initialise => 0
  | Stage.load => 1
  | Stage.loop => 2
  | Stage.free => 3

/-- The rank of the stages in the order load, initialise, loop, free. -/
def loadFirstRank : Stage → Nat
  | Stage.load => 0
  | Stage.initialise => 1
  | Stage.loop => 2
  | Stage.free => 3

/-- The calls of the trace follow the stages in the order given by `rank`: no call of a
later stage comes before a call of an earlier one. -/
def InStageOrder (rank : Stage → Nat) (trace : List SDLCall) : Prop :=
  ((trace.filterMap stageOf).map rank).Pairwise (fun a b => a ≤ b)

instance (rank : Stage → Nat) (trace : List SDLCall) : Decidable (InStageOrder rank trace) := by
  unfold InStageOrder; infer_instance

/-- The place of a call in the order `SDL_LoadBMP`, `SDL_Init`, `SDL_CreateWindow`,
`SDL_GetWindowSurface`, the calls of the event loop, `SDL_FreeSurface`,
`SDL_DestroyWindow`, `SDL_Quit`; `SDL_GetError` has none. -/
def callRank : SDLCall → Option Nat
  | SDLCall.SDL_LoadBMP _ => some 0
  | SDLCall.SDL_Init => some 1
  | SDLCall.SDL_CreateWindow => some 2
  | SDLCall.SDL_GetWindowSurface _ => some 3
  | SDLCall.SDL_PollEvent => some 4
  | SDLCall.SDL_BlitSurface _ _ => some 4
  | SDLCall.SDL_UpdateWindowSurface _ => some 4
  | SDLCall.SDL_FreeSurface _ => some 5
  | SDLCall.SDL_DestroyWindow _ => some 6
  | SDLCall.SDL_Quit => some 7
  | SDLCall.SDL_GetError => none

/-- The calls of the trace are made in the order of `callRank`: no call comes before a
call of a lower rank. -/
def InCallOrder (trace : List SDLCall) : Prop :=
  (trace.filterMap callRank).Pairwise (fun a b => a ≤ b)

instance (trace : List SDLCall) : Decidable (InCallOrder trace) := by
  unfold InCallOrder; infer_instance

/-- A run in which every call succeeds and the user quits at once. -/
def quitAtOnce : Env :=
  { sdlInit := 0, createWindow := 1, getWindowSurface := 2, loadBMP := 3,
    polls := [some EventType.SDL_QUIT, none] }

end EventDriven

/-! # Theorems -/

namespace MultiWindow

/-! ## Machine integer lemmas -/

theorem wrapInt_of_inRange {x : Int} (h : InRange x) : wrapInt x = x := by
  unfold InRange at h
  unfold wrapInt
  omega

theorem inRange_of_sq_sum {p q : Int} (h : InRange (p * p + q * q)) :
    InRange (p * p) ∧ InRange (q * q) := by
  unfold InRange at *
  have hp := mul_self_nonneg p
  have hq := mul_self_nonneg q
  omega

/-- Without overflow the `int` computation of `distanceSquared` is the mathematical
squared distance. -/
theorem distanceSquared_eq {x1 y1 x2 y2 : Int} (hx : InRange (x2 - x1))
    (hy : InRange (y2 - y1))
    (hs : InRange ((x2 - x1) * (x2 - x1) + (y2 - y1) * (y2 - y1))) :
    distanceSquared x1 y1 x2 y2 = (x2 - x1) ^ 2 + (y2 - y1) ^ 2 := by
  obtain ⟨h1, h2⟩ := inRange_of_sq_sum hs
  simp only [distanceSquared, subInt, addInt, mulInt, wrapInt_of_inRange hx,
    wrapInt_of_inRange hy, wrapInt_of_inRange h1, wrapInt_of_inRange h2,
    wrapInt_of_inRange hs]
  ring

/-- C1: for circles with non-negative radii and no `int` overflow, the circle/circle
`checkCollision` is true exactly when the squared distance of the centres, which is what
`distanceSquared` returns, is strictly less than the squared sum of the radii, that is
exactly when the distance of the centres is less than the sum of the radii; circles that
exactly touch are not colliding. -/
theorem checkCollision_circle_iff (a b : Circle) (hra : 0 ≤ a.r) (hrb : 0 ≤ b.r)
    (hx : InRange (b.x - a.x)) (hy : InRange (b.y - a.y))
    (hs : InRange ((b.x - a.x) * (b.x - a.x) + (b.y - a.y) * (b.y - a.y)))
    (hr : InRange (a.r + b.r)) (hrr : InRange ((a.r + b.r) * (a.r + b.r))) :
    distanceSquared a.x a.y b.x b.y = (b.x - a.x) ^ 2 + (b.y - a.y) ^ 2 ∧
    (checkCollision a b = true ↔
      distanceSquared a.x a.y b.x b.y < (a.r + b.r) ^ 2) ∧
    (checkCollision a b = true ↔
      Real.sqrt (((b.x - a.x) ^ 2 + (b.y - a.y) ^ 2 : Int) : ℝ) < ((a.r + b.r : Int) : ℝ)) ∧
    (Real.sqrt (((b.x - a.x) ^ 2 + (b.y - a.y) ^ 2 : Int) : ℝ) = ((a.r + b.r : Int) : ℝ) →
      checkCollision a b = false) := by
  have hd := distanceSquared_eq hx hy hs
  have hc : checkCollision a b = true ↔
      distanceSquared a.x a.y b.x b.y < (a.r + b.r) ^ 2 := by
    simp only [checkCollision, addInt, mulInt, wrapInt_of_inRange hr,
      wrapInt_of_inRange hrr]
    rw [show (a.r + b.r) * (a.r + b.r) = (a.r + b.r) ^ 2 by ring]
    simp
  have hsum : (0 : ℝ) ≤ ((a.r + b.r : Int) : ℝ) := by exact_mod_cast add_nonneg hra hrb
  have hdist : (0 : ℝ) ≤ (((b.x - a.x) ^ 2 + (b.y - a.y) ^ 2 : Int) : ℝ) := by
    exact_mod_cast add_nonneg (sq_nonneg (b.x - a.x)) (sq_nonneg (b.y - a.y))
  have hreal : checkCollision a b = true ↔
      Real.sqrt (((b.x - a.x) ^ 2 + (b.y - a.y) ^ 2 : Int) : ℝ) < ((a.r + b.r : Int) : ℝ) := by
    rw [hc, hd, Real.sqrt_lt hdist hsum]
    constructor
    · intro h
      exact_mod_cast h
    · intro h
      exact_mod_cast h
  refine ⟨hd, hc, hreal, ?_⟩
  intro htouch
  cases hcol : checkCollision a b with
  | false => rfl
  | true =>
    have hlt := hreal.mp hcol
    rw [htouch] at hlt
    exact absurd hlt (lt_irrefl _)

/-- Witness of C1: the circles of radius 2 and 3 whose centres are 5 apart. -/
theorem checkCollision_circle_iff_witness :
    ((0 : Int) ≤ 2 ∧ (0 : Int) ≤ 3 ∧ InRange ((3 : Int) - 0) ∧ InRange ((4 : Int) - 0) ∧
      InRange (((3 : Int) - 0) * (3 - 0) + (4 - 0) * (4 - 0)) ∧ InRange ((2 : Int) + 3) ∧
      InRange (((2 : Int) + 3) * (2 + 3))) ∧
    (checkCollision ⟨0, 0, 2⟩ ⟨3, 4, 3⟩ = true ↔
      distanceSquared 0 0 3 4 < ((2 : Int) + 3) ^ 2) :=
  ⟨⟨by decide, by decide, by decide, by decide, by decide, by decide, by decide⟩,
    (checkCollision_circle_iff ⟨0, 0, 2⟩ ⟨3, 4, 3⟩ (by decide) (by decide) (by decide)
      (by decide) (by decide) (by decide) (by decide)).2.1⟩

/-- One axis of the closest point: the clamped coordinate lies in the interval and no
point of the interval is nearer to the centre coordinate. -/
theorem clamp_axis_closest (c lo len v : Int) (hlen : 0 ≤ len)
    (hv : v = if c < lo then lo else if c > lo + len then lo + len else c) :
    lo ≤ v ∧ v ≤ lo + len ∧
    ∀ p : ℝ, (lo : ℝ) ≤ p → p ≤ (lo : ℝ) + (len : ℝ) →
      ((v : ℝ) - (c : ℝ)) ^ 2 ≤ (p - (c : ℝ)) ^ 2 := by
  by_cases h1 : c < lo
  · rw [if_pos h1] at hv
    subst hv
    refine ⟨le_refl _, by omega, ?_⟩
    intro p hp1 _
    have hc : (c : ℝ) < (v : ℝ) := by exact_mod_cast h1
    nlinarith
  · rw [if_neg h1] at hv
    by_cases h2 : c > lo + len
    · rw [if_pos h2] at hv
      subst hv
      refine ⟨by omega, le_refl _, ?_⟩
      intro p _ hp2
      have hc : (lo : ℝ) + (len : ℝ) < (c : ℝ) := by exact_mod_cast h2
      push_cast
      nlinarith
    · rw [if_neg h2] at hv
      subst hv
      refine ⟨by omega, by omega, ?_⟩
      intro p _ _
      simp only [sub_self]
      exact le_trans (by norm_num) (sq_nonneg _)

theorem closestX_eq (a : Circle) (b : SDL_Rect) (hbw : InRange (b.x + b.w)) :
    closestX a b = if a.x < b.x then b.x else if a.x > b.x + b.w then b.x + b.w else a.x := by
  simp only [closestX, addInt, wrapInt_of_inRange hbw]

theorem closestY_eq (a : Circle) (b : SDL_Rect) (hbh : InRange (b.y + b.h)) :
    closestY a b = if a.y < b.y then b.y else if a.y > b.y + b.h then b.y + b.h else a.y := by
  simp only [closestY, addInt, wrapInt_of_inRange hbh]

/-- C2: for a circle and a rectangle of non-negative width and height (no `int`
overflow), the point `(cX, cY)` that the circle/box `checkCollision` computes lies in the
closed rectangle and no point of the rectangle, real or integer, is nearer to the centre;
hence the function returns true exactly when some point of the closed rectangle has
squared distance to the centre strictly less than `a.r * a.r`. -/
theorem checkCollision_box_closest (a : Circle) (b : SDL_Rect) (hw : 0 ≤ b.w)
    (hh : 0 ≤ b.h) (hbw : InRange (b.x + b.w)) (hbh : InRange (b.y + b.h))
    (hx : InRange (closestX a b - a.x)) (hy : InRange (closestY a b - a.y))
    (hs : InRange ((closestX a b - a.x) * (closestX a b - a.x) +
      (closestY a b - a.y) * (closestY a b - a.y)))
    (hr : InRange (a.r * a.r)) :
    (b.x ≤ closestX a b ∧ closestX a b ≤ b.x + b.w ∧
      b.y ≤ closestY a b ∧ closestY a b ≤ b.y + b.h) ∧
    (∀ px py : ℝ, (b.x : ℝ) ≤ px → px ≤ (b.x : ℝ) + (b.w : ℝ) →
      (b.y : ℝ) ≤ py → py ≤ (b.y : ℝ) + (b.h : ℝ) →
      ((distanceSquared a.x a.y (closestX a b) (closestY a b) : Int) : ℝ) ≤
        (px - (a.x : ℝ)) ^ 2 + (py - (a.y : ℝ)) ^ 2) ∧
    (checkCollisionBox a b = true ↔
      ∃ px py : ℝ, ((b.x : ℝ) ≤ px ∧ px ≤ (b.x : ℝ) + (b.w : ℝ) ∧
        (b.y : ℝ) ≤ py ∧ py ≤ (b.y : ℝ) + (b.h : ℝ)) ∧
        (px - (a.x : ℝ)) ^ 2 + (py - (a.y : ℝ)) ^ 2 < ((a.r * a.r : Int) : ℝ)) ∧
    (checkCollisionBox a b = true ↔
      ∃ px py : Int, (b.x ≤ px ∧ px ≤ b.x + b.w ∧ b.y ≤ py ∧ py ≤ b.y + b.h) ∧
        (px - a.x) ^ 2 + (py - a.y) ^ 2 < a.r * a.r) := by
  obtain ⟨hx1, hx2, hxc⟩ := clamp_axis_closest a.x b.x b.w (closestX a b) hw
    (closestX_eq a b hbw)
  obtain ⟨hy1, hy2, hyc⟩ := clamp_axis_closest a.y b.y b.h (closestY a b) hh
    (closestY_eq a b hbh)
  have hd := distanceSquared_eq hx hy hs
  have hclosest : ∀ px py : ℝ, (b.x : ℝ) ≤ px → px ≤ (b.x : ℝ) + (b.w : ℝ) →
      (b.y : ℝ) ≤ py → py ≤ (b.y : ℝ) + (b.h : ℝ) →
      ((distanceSquared a.x a.y (closestX a b) (closestY a b) : Int) : ℝ) ≤
        (px - (a.x : ℝ)) ^ 2 + (py - (a.y : ℝ)) ^ 2 := by
    intro px py h1 h2 h3 h4
    rw [hd]
    push_cast
    exact add_le_add (hxc px h1 h2) (hyc py h3 h4)
  have hc : checkCollisionBox a b = true ↔
      distanceSquared a.x a.y (closestX a b) (closestY a b) < a.r * a.r := by
    simp only [checkCollisionBox, mulInt, wrapInt_of_inRange hr]
    simp
  refine ⟨⟨hx1, hx2, hy1, hy2⟩, hclosest, ?_, ?_⟩
  · rw [hc]
    constructor
    · intro h
      refine ⟨(closestX a b : ℝ), (closestY a b : ℝ), ⟨?_, ?_, ?_, ?_⟩, ?_⟩
      · exact_mod_cast hx1
      · exact_mod_cast hx2
      · exact_mod_cast hy1
      · exact_mod_cast hy2
      · rw [hd] at h
        exact_mod_cast h
    · rintro ⟨px, py, ⟨h1, h2, h3, h4⟩, hlt⟩
      have hle := hclosest px py h1 h2 h3 h4
      exact_mod_cast lt_of_le_of_lt hle hlt
  · rw [hc]
    constructor
    · intro h
      exact ⟨closestX a b, closestY a b, ⟨hx1, hx2, hy1, hy2⟩, by rw [hd] at h; exact h⟩
    · rintro ⟨px, py, ⟨h1, h2, h3, h4⟩, hlt⟩
      have hle := hclosest (px : ℝ) (py : ℝ) (by exact_mod_cast h1) (by exact_mod_cast h2)
        (by exact_mod_cast h3) (by exact_mod_cast h4)
      have hlt2 : (((px - a.x) ^ 2 + (py - a.y) ^ 2 : Int) : ℝ) < ((a.r * a.r : Int) : ℝ) := by
        exact_mod_cast hlt
      push_cast at hlt2
      have := lt_of_le_of_lt hle hlt2
      exact_mod_cast this

/-- Witness of C2: a circle of radius 3 centred left of and above a 10 by 10 box. -/
theorem checkCollision_box_closest_witness :
    ((0 : Int) ≤ 10 ∧ InRange ((0 : Int) + 10)) ∧
    (checkCollisionBox ⟨-2, -2, 3⟩ ⟨0, 0, 10, 10⟩ = true ↔
      ∃ px py : Int, ((0 : Int) ≤ px ∧ px ≤ (0 : Int) + 10 ∧ (0 : Int) ≤ py ∧
        py ≤ (0 : Int) + 10) ∧ (px - (-2)) ^ 2 + (py - (-2)) ^ 2 < (3 : Int) * 3) :=
  ⟨⟨by decide, by decide⟩,
    (checkCollision_box_closest ⟨-2, -2, 3⟩ ⟨0, 0, 10, 10⟩ (by decide) (by decide)
      (by decide) (by decide) (by decide) (by decide) (by decide) (by decide)).2.2.2⟩

/-- C3: the timer excludes paused time.  With the clock read as `t0` at `start()`, `t1`
at `pause()`, `t2` at `unpause()` and `t3` at a later `getTicks()`: any `getTicks()`
between the pause and the unpause returns `(t1 - t0) mod 2^32` whatever the clock reads,
and the `getTicks()` at `t3` returns `((t1 - t0) + (t3 - t2)) mod 2^32`. -/
theorem LTimer_excludes_paused_time (t : LTimer) (t0 t1 t2 t3 tmid : Nat) :
    ((((t.start t0).pause t1).getTicks tmid : Nat) : Int) =
      ((t1 : Int) - (t0 : Int)) % 4294967296 ∧
    (((((t.start t0).pause t1).unpause t2).getTicks t3 : Nat) : Int) =
      (((t1 : Int) - (t0 : Int)) + ((t3 : Int) - (t2 : Int))) % 4294967296 := by
  constructor
  · simp only [LTimer.start, LTimer.pause, LTimer.getTicks, subUint32]
    simp only [Bool.not_false, Bool.and_self, if_true]
    omega
  · simp only [LTimer.start, LTimer.pause, LTimer.unpause, LTimer.getTicks, subUint32]
    simp only [Bool.not_false, Bool.and_self, if_true]
    simp only [Bool.false_eq_true, if_false]
    omega

/-- One axis of `Dot::move`: the tentative position is kept when it lies inside the level
and undone otherwise. -/
theorem move_axis (p v size level : Int) (hp0 : 0 ≤ p) (hp1 : p + size ≤ level)
    (hsize : 0 ≤ size) (hlevel : InRange level) (ho : InRange (p + v))
    (ho2 : 0 ≤ p + v → InRange (p + v + size)) :
    (if addInt p v < 0 || addInt (addInt p v) size > level then subInt (addInt p v) v
      else addInt p v) =
    (if 0 ≤ p + v ∧ p + v ≤ level - size then p + v else p) := by
  have hpr : InRange p := by
    unfold InRange at *
    omega
  simp only [addInt, subInt, wrapInt_of_inRange ho]
  by_cases hneg : p + v < 0
  · have h2 : ¬ (0 ≤ p + v ∧ p + v ≤ level - size) := by omega
    simp only [hneg, decide_True, Bool.true_or, if_true, h2, if_false]
    rw [show p + v - v = p by ring]
    exact wrapInt_of_inRange hpr
  · have hnn : 0 ≤ p + v := by omega
    rw [wrapInt_of_inRange (ho2 hnn)]
    by_cases hbig : p + v + size > level
    · have h2 : ¬ (0 ≤ p + v ∧ p + v ≤ level - size) := by omega
      simp only [hbig, decide_True, Bool.or_true, if_true, h2, if_false]
      rw [show p + v - v = p by ring]
      exact wrapInt_of_inRange hpr
    · have h2 : 0 ≤ p + v ∧ p + v ≤ level - size := by omega
      simp only [hneg, hbig, decide_False, Bool.or_self, Bool.false_eq_true, if_false,
        h2, and_self, if_true]

/-- C9: `Dot::move` keeps the dot inside the level.  From a state with
`0 <= mPosX`, `mPosX + DOT_WIDTH <= LEVEL_WIDTH`, `0 <= mPosY` and
`mPosY + DOT_HEIGHT <= LEVEL_HEIGHT`, and for every velocity (no `int` overflow), the same
four bounds hold after `move()`; each axis is all-or-nothing: the new `mPosX` is
`mPosX + mVelX` when that lies in `[0, LEVEL_WIDTH - DOT_WIDTH]` and the old `mPosX`
otherwise, likewise for `mPosY`; and the velocity is unchanged. -/
theorem Dot_move_keeps_inside (d : Dot) (hx0 : 0 ≤ d.mPosX)
    (hx1 : d.mPosX + Dot.DOT_WIDTH ≤ LEVEL_WIDTH) (hy0 : 0 ≤ d.mPosY)
    (hy1 : d.mPosY + Dot.DOT_HEIGHT ≤ LEVEL_HEIGHT)
    (hox : InRange (d.mPosX + d.mVelX))
    (hox2 : 0 ≤ d.mPosX + d.mVelX → InRange (d.mPosX + d.mVelX + Dot.DOT_WIDTH))
    (hoy : InRange (d.mPosY + d.mVelY))
    (hoy2 : 0 ≤ d.mPosY + d.mVelY → InRange (d.mPosY + d.mVelY + Dot.DOT_HEIGHT)) :
    (0 ≤ d.move.mPosX ∧ d.move.mPosX + Dot.DOT_WIDTH ≤ LEVEL_WIDTH ∧
      0 ≤ d.move.mPosY ∧ d.move.mPosY + Dot.DOT_HEIGHT ≤ LEVEL_HEIGHT) ∧
    d.move.mPosX =
      (if 0 ≤ d.mPosX + d.mVelX ∧ d.mPosX + d.mVelX ≤ LEVEL_WIDTH - Dot.DOT_WIDTH
        then d.mPosX + d.mVelX else d.mPosX) ∧
    d.move.mPosY =
      (if 0 ≤ d.mPosY + d.mVelY ∧ d.mPosY + d.mVelY ≤ LEVEL_HEIGHT - Dot.DOT_HEIGHT
        then d.mPosY + d.mVelY else d.mPosY) ∧
    d.move.mVelX = d.mVelX ∧ d.move.mVelY = d.mVelY ∧ d.move.mCollider = d.mCollider := by
  have hX : d.move.mPosX =
      (if 0 ≤ d.mPosX + d.mVelX ∧ d.mPosX + d.mVelX ≤ LEVEL_WIDTH - Dot.DOT_WIDTH
        then d.mPosX + d.mVelX else d.mPosX) :=
    move_axis d.mPosX d.mVelX Dot.DOT_WIDTH LEVEL_WIDTH hx0 hx1 (by decide) (by decide)
      hox hox2
  have hY : d.move.mPosY =
      (if 0 ≤ d.mPosY + d.mVelY ∧ d.mPosY + d.mVelY ≤ LEVEL_HEIGHT - Dot.DOT_HEIGHT
        then d.mPosY + d.mVelY else d.mPosY) :=
    move_axis d.mPosY d.mVelY Dot.DOT_HEIGHT LEVEL_HEIGHT hy0 hy1 (by decide) (by decide)
      hoy hoy2
  refine ⟨⟨?_, ?_, ?_, ?_⟩, hX, hY, rfl, rfl, rfl⟩
  · rw [hX]; split <;> omega
  · rw [hX]; split <;> omega
  · rw [hY]; split <;> omega
  · rw [hY]; split <;> omega

/-- Witness of C9: a dot at the right edge moving right stays, and moves down freely. -/
theorem Dot_move_keeps_inside_witness :
    ((0 : Int) ≤ 620 ∧ (620 : Int) + Dot.DOT_WIDTH ≤ LEVEL_WIDTH ∧
      InRange ((620 : Int) + 10)) ∧
    (Dot.move ⟨620, 0, 10, 10, ⟨0, 0, 0⟩⟩).mPosX = 620 ∧
    (Dot.move ⟨620, 0, 10, 10, ⟨0, 0, 0⟩⟩).mPosY = 10 :=
  have h := Dot_move_keeps_inside ⟨620, 0, 10, 10, ⟨0, 0, 0⟩⟩ (by decide) (by decide)
    (by decide) (by decide) (by decide) (fun _ => by decide) (by decide)
    (fun _ => by decide)
  ⟨⟨by decide, by decide, by decide⟩, h.2.1.trans (by decide), h.2.2.1.trans (by decide)⟩

/-- C4: windows are independent under window events.  For every window state and every
event of type `SDL_WINDOWEVENT` whose `windowID` differs from the identifier of the window
(the comparison `e.window.windowID == mWindowID` of the code is false),
`LWindow::handleEvent` leaves every field unchanged and issues no library call. -/
theorem LWindow_handleEvent_other_window (w : LWindow) (gRenderer : Ptr) (e : SDL_Event)
    (htype : e.type = EventType.SDL_WINDOWEVENT)
    (hid : e.window.windowID ≠ toUint32 w.mWindowID) :
    w.handleEvent gRenderer e = (w, []) := by
  simp [LWindow.handleEvent, htype, hid]

/-- Witness of C4: a close event for window 2 reaches window 1. -/
theorem LWindow_handleEvent_other_window_witness :
    (windowEvent 2 WindowEventID.SDL_WINDOWEVENT_CLOSE 0 0).window.windowID ≠
        toUint32 (1 : Int) ∧
      ({ LWindow.new with mWindowID := 1, mShown := true }).handleEvent NULL
          (windowEvent 2 WindowEventID.SDL_WINDOWEVENT_CLOSE 0 0) =
        ({ LWindow.new with mWindowID := 1, mShown := true }, []) :=
  ⟨by decide,
    LWindow_handleEvent_other_window { LWindow.new with mWindowID := 1, mShown := true }
      NULL (windowEvent 2 WindowEventID.SDL_WINDOWEVENT_CLOSE 0 0) rfl (by decide)⟩

/-! ## Focus tracking -/

theorem handleEvent_mWindowID (w : LWindow) (gRenderer : Ptr) (e : SDL_Event) :
    (w.handleEvent gRenderer e).1.mWindowID = w.mWindowID := by
  unfold LWindow.handleEvent LWindow.handleWindowEvent
  split
  · cases e.window.event <;> simp
  · split
    · split <;> rfl
    · rfl

theorem handleEvent_mMouseFocus (w : LWindow) (gRenderer : Ptr) (e : SDL_Event) :
    (w.handleEvent gRenderer e).1.mMouseFocus =
      (mouseFocusEvent (toUint32 w.mWindowID) e).getD w.mMouseFocus := by
  unfold LWindow.handleEvent LWindow.handleWindowEvent mouseFocusEvent
  by_cases h : e.type = EventType.SDL_WINDOWEVENT ∧ e.window.windowID = toUint32 w.mWindowID
  · simp only [h.1, h.2, decide_True, Bool.and_self, if_true, and_self]
    cases e.window.event <;> simp
  · have h2 : (decide (e.type = EventType.SDL_WINDOWEVENT) &&
        decide (e.window.windowID = toUint32 w.mWindowID)) = false := by
      simpa using h
    rw [if_neg h]
    simp only [h2, Bool.false_eq_true, if_false, Option.getD_none]
    split
    · split <;> rfl
    · rfl

theorem handleEvent_mKeyboardFocus (w : LWindow) (gRenderer : Ptr) (e : SDL_Event) :
    (w.handleEvent gRenderer e).1.mKeyboardFocus =
      (keyboardFocusEvent (toUint32 w.mWindowID) e).getD w.mKeyboardFocus := by
  unfold LWindow.handleEvent LWindow.handleWindowEvent keyboardFocusEvent
  by_cases h : e.type = EventType.SDL_WINDOWEVENT ∧ e.window.windowID = toUint32 w.mWindowID
  · simp only [h.1, h.2, decide_True, Bool.and_self, if_true, and_self]
    cases e.window.event <;> simp
  · have h2 : (decide (e.type = EventType.SDL_WINDOWEVENT) &&
        decide (e.window.windowID = toUint32 w.mWindowID)) = false := by
      simpa using h
    rw [if_neg h]
    simp only [h2, Bool.false_eq_true, if_false, Option.getD_none]
    split
    · split <;> rfl
    · rfl

theorem lastFocus_cons (f : SDL_Event → Option Bool) (initial : Bool) (e : SDL_Event)
    (es : List SDL_Event) :
    lastFocus f initial (e :: es) = lastFocus f ((f e).getD initial) es := by
  unfold lastFocus
  rw [List.filterMap_cons]
  cases hfe : f e with
  | none => simp
  | some b => simp [List.getLast?_cons]

theorem handleEvents_focus (gRenderer : Ptr) (es : List SDL_Event) :
    ∀ w : LWindow,
      (w.handleEvents gRenderer es).mWindowID = w.mWindowID ∧
      (w.handleEvents gRenderer es).mMouseFocus =
        lastFocus (mouseFocusEvent (toUint32 w.mWindowID)) w.mMouseFocus es ∧
      (w.handleEvents gRenderer es).mKeyboardFocus =
        lastFocus (keyboardFocusEvent (toUint32 w.mWindowID)) w.mKeyboardFocus es := by
  induction es with
  | nil => intro w; exact ⟨rfl, rfl, rfl⟩
  | cons e es ih =>
    intro w
    obtain ⟨h1, h2, h3⟩ := ih (w.handleEvent gRenderer e).1
    rw [handleEvent_mWindowID] at h1 h2 h3
    rw [handleEvent_mMouseFocus] at h2
    rw [handleEvent_mKeyboardFocus] at h3
    refine ⟨h1, ?_, ?_⟩
    · rw [lastFocus_cons]; exact h2
    · rw [lastFocus_cons]; exact h3

/-- C5: focus tracking follows the last focus event.  For every window state and every
finite sequence of events fed to `LWindow::handleEvent`, afterwards `hasMouseFocus()` is
the flag of the last `SDL_WINDOWEVENT_ENTER` (true) or `SDL_WINDOWEVENT_LEAVE` (false)
addressed to this window, and the initial value when there is none; `hasKeyboardFocus()`
is likewise the flag of the last `SDL_WINDOWEVENT_FOCUS_GAINED` or
`SDL_WINDOWEVENT_FOCUS_LOST` addressed to this window; and an event that is not such a
focus event for this window (a key press, an event for another window) changes neither
flag. -/
theorem LWindow_focus_follows_last_event (w : LWindow) (gRenderer : Ptr)
    (es : List SDL_Event) :
    (w.handleEvents gRenderer es).hasMouseFocus =
      lastFocus (mouseFocusEvent (toUint32 w.mWindowID)) w.hasMouseFocus es ∧
    (w.handleEvents gRenderer es).hasKeyboardFocus =
      lastFocus (keyboardFocusEvent (toUint32 w.mWindowID)) w.hasKeyboardFocus es ∧
    (∀ e : SDL_Event, mouseFocusEvent (toUint32 w.mWindowID) e = none →
      (w.handleEvent gRenderer e).1.hasMouseFocus = w.hasMouseFocus) ∧
    (∀ e : SDL_Event, keyboardFocusEvent (toUint32 w.mWindowID) e = none →
      (w.handleEvent gRenderer e).1.hasKeyboardFocus = w.hasKeyboardFocus) := by
  obtain ⟨_, h2, h3⟩ := handleEvents_focus gRenderer es w
  refine ⟨h2, h3, ?_, ?_⟩
  · intro e he
    simp only [LWindow.hasMouseFocus, handleEvent_mMouseFocus, he, Option.getD_none]
  · intro e he
    simp only [LWindow.hasKeyboardFocus, handleEvent_mKeyboardFocus, he, Option.getD_none]

/-- Witness of C5: window 1 sees the mouse enter, a leave for window 2 and a key press. -/
theorem LWindow_focus_follows_last_event_witness :
    (({ LWindow.new with mWindowID := 1 }).handleEvents NULL
      [windowEvent 1 WindowEventID.SDL_WINDOWEVENT_ENTER 0 0,
        windowEvent 2 WindowEventID.SDL_WINDOWEVENT_LEAVE 0 0,
        keyboardEvent EventType.SDL_KEYDOWN Keycode.SDLK_RETURN 0]).hasMouseFocus = true :=
  (LWindow_focus_follows_last_event { LWindow.new with mWindowID := 1 } NULL
    [windowEvent 1 WindowEventID.SDL_WINDOWEVENT_ENTER 0 0,
      windowEvent 2 WindowEventID.SDL_WINDOWEVENT_LEAVE 0 0,
      keyboardEvent EventType.SDL_KEYDOWN Keycode.SDLK_RETURN 0]).1.trans (by decide)

/-- C6: the repaint in `LWindow::handleEvent` does not target the renderer of the window.
A window whose own renderer is `7`, with the global `gRenderer` still `NULL` as it is
throughout the program, presents on `gRenderer` when it is exposed or resized, whereas
`LWindow::render` clears and presents on `mRenderer`. -/
theorem LWindow_repaint_targets_gRenderer :
    (({ LWindow.new with mWindow := 5, mRenderer := 7, mWindowID := 1, mShown := true }
        ).handleEvent NULL (windowEvent 1 WindowEventID.SDL_WINDOWEVENT_EXPOSED 0 0)).2 =
      [SDLCall.SDL_RenderPresent NULL] ∧
    (({ LWindow.new with mWindow := 5, mRenderer := 7, mWindowID := 1, mShown := true }
        ).handleEvent NULL
          (windowEvent 1 WindowEventID.SDL_WINDOWEVENT_SIZE_CHANGED 800 600)).2 =
      [SDLCall.SDL_RenderPresent NULL] ∧
    ({ LWindow.new with mWindow := 5, mRenderer := 7, mWindowID := 1, mShown := true }
        ).render =
      [SDLCall.SDL_SetRenderDrawColor 7, SDLCall.SDL_RenderClear 7,
        SDLCall.SDL_RenderPresent 7] := by
  decide

/-- An event that fits the keys held down keeps the velocity equal to what the keys held
down stand for. -/
theorem handleEvent_tracks_keys (d : Dot) (k k2 : ArrowKeys) (e : SDL_Event)
    (hstep : k.step e = some k2) (hx : d.mVelX = k.velX) (hy : d.mVelY = k.velY) :
    (d.handleEvent e).mVelX = k2.velX ∧ (d.handleEvent e).mVelY = k2.velY := by
  obtain ⟨up, down, left, right⟩ := k
  unfold ArrowKeys.step at hstep
  unfold Dot.handleEvent
  by_cases h1 : e.type = EventType.SDL_KEYDOWN ∧ e.key.repeat_ = 0
  · rw [if_pos h1] at hstep
    simp only [h1.1, h1.2, decide_True, Bool.and_self, if_true]
    cases hsym : e.key.keysym.sym <;> rw [hsym] at hstep <;> simp only at hstep ⊢ <;>
      cases up <;> cases down <;> cases left <;> cases right <;>
      simp only [Bool.false_eq_true, if_false, if_true, Option.some.injEq] at hstep <;>
      first
        | exact absurd hstep (by simp)
        | (subst hstep
           rw [hx, hy]
           decide)
  · rw [if_neg h1] at hstep
    have h1b : (decide (e.type = EventType.SDL_KEYDOWN) && decide (e.key.repeat_ = 0)) =
        false := by simpa using h1
    simp only [h1b, Bool.false_eq_true, if_false]
    by_cases h2 : e.type = EventType.SDL_KEYUP ∧ e.key.repeat_ = 0
    · rw [if_pos h2] at hstep
      simp only [h2.1, h2.2, decide_True, Bool.and_self, if_true]
      cases hsym : e.key.keysym.sym <;> rw [hsym] at hstep <;> simp only at hstep ⊢ <;>
        cases up <;> cases down <;> cases left <;> cases right <;>
        simp only [Bool.false_eq_true, if_false, if_true, Option.some.injEq] at hstep <;>
        first
          | exact absurd hstep (by simp)
          | (subst hstep
             rw [hx, hy]
             decide)
    · rw [if_neg h2] at hstep
      have h2b : (decide (e.type = EventType.SDL_KEYUP) && decide (e.key.repeat_ = 0)) =
          false := by simpa using h2
      simp only [h2b, Bool.false_eq_true, if_false]
      rw [← Option.some.inj hstep]
      exact ⟨hx, hy⟩

theorem handleEvents_tracks_keys (es : List SDL_Event) :
    ∀ (d : Dot) (k k2 : ArrowKeys), k.run es = some k2 → d.mVelX = k.velX →
      d.mVelY = k.velY →
      (d.handleEvents es).mVelX = k2.velX ∧ (d.handleEvents es).mVelY = k2.velY := by
  induction es with
  | nil =>
    intro d k k2 hrun hx hy
    simp only [ArrowKeys.run, Option.some.injEq] at hrun
    subst hrun
    exact ⟨hx, hy⟩
  | cons e es ih =>
    intro d k k2 hrun hx hy
    simp only [ArrowKeys.run] at hrun
    cases hstep : k.step e with
    | none => rw [hstep] at hrun; exact absurd hrun (by simp)
    | some k1 =>
      rw [hstep] at hrun
      obtain ⟨hx1, hy1⟩ := handleEvent_tracks_keys d k k1 e hstep hx hy
      exact ih (d.handleEvent e) k1 k2 hrun hx1 hy1

theorem velX_bounds (k : ArrowKeys) : -Dot.DOT_VEL ≤ k.velX ∧ k.velX ≤ Dot.DOT_VEL := by
  obtain ⟨up, down, left, right⟩ := k
  cases up <;> cases down <;> cases left <;> cases right <;> decide

theorem velY_bounds (k : ArrowKeys) : -Dot.DOT_VEL ≤ k.velY ∧ k.velY ≤ Dot.DOT_VEL := by
  obtain ⟨up, down, left, right⟩ := k
  cases up <;> cases down <;> cases left <;> cases right <;> decide

/-- C10: the velocity of the dot can exceed `DOT_VEL`, the "maximum axis velocity of the
dot".  A freshly constructed dot that receives the release of the right arrow key and
then the press of the left arrow key, neither a repeat, has `mVelX = -20`, below
`-DOT_VEL`: `handleEvent` adds and subtracts `DOT_VEL` without bounding the result. -/
theorem Dot_velocity_exceeds_DOT_VEL :
    ((Dot.new ⟨0, 0, 0⟩).handleEvents
        [keyboardEvent EventType.SDL_KEYUP Keycode.SDLK_RIGHT 0,
          keyboardEvent EventType.SDL_KEYDOWN Keycode.SDLK_LEFT 0]).mVelX = -20 ∧
    ¬ (-Dot.DOT_VEL ≤ ((Dot.new ⟨0, 0, 0⟩).handleEvents
        [keyboardEvent EventType.SDL_KEYUP Keycode.SDLK_RIGHT 0,
          keyboardEvent EventType.SDL_KEYDOWN Keycode.SDLK_LEFT 0]).mVelX) := by
  decide

/-- Where the bound on the velocity does hold: starting from a freshly constructed dot,
after every finite sequence of events in which, for each arrow key, the presses and
releases that are not repeats alternate beginning with a press, the velocity satisfies
`-DOT_VEL <= mVelX <= DOT_VEL` and `-DOT_VEL <= mVelY <= DOT_VEL`.  The bound is lost only
on sequences that are not of this kind. -/
theorem Dot_velocity_bounded_of_alternating (mCollider : Circle) (es : List SDL_Event)
    (halt : KeysAlternate es) :
    (-Dot.DOT_VEL ≤ ((Dot.new mCollider).handleEvents es).mVelX ∧
      ((Dot.new mCollider).handleEvents es).mVelX ≤ Dot.DOT_VEL) ∧
    (-Dot.DOT_VEL ≤ ((Dot.new mCollider).handleEvents es).mVelY ∧
      ((Dot.new mCollider).handleEvents es).mVelY ≤ Dot.DOT_VEL) := by
  unfold KeysAlternate at halt
  obtain ⟨k2, hk2⟩ := Option.isSome_iff_exists.mp halt
  obtain ⟨hx, hy⟩ := handleEvents_tracks_keys es (Dot.new mCollider) ArrowKeys.released k2
    hk2 rfl rfl
  rw [hx, hy]
  exact ⟨velX_bounds k2, velY_bounds k2⟩

/-- An alternating sequence: right is pressed, then up, then right is released. -/
theorem Dot_velocity_bounded_of_alternating_witness :
    KeysAlternate [keyboardEvent EventType.SDL_KEYDOWN Keycode.SDLK_RIGHT 0,
      keyboardEvent EventType.SDL_KEYDOWN Keycode.SDLK_UP 0,
      keyboardEvent EventType.SDL_KEYUP Keycode.SDLK_RIGHT 0] ∧
    ((-Dot.DOT_VEL ≤ ((Dot.new ⟨0, 0, 0⟩).handleEvents
        [keyboardEvent EventType.SDL_KEYDOWN Keycode.SDLK_RIGHT 0,
          keyboardEvent EventType.SDL_KEYDOWN Keycode.SDLK_UP 0,
          keyboardEvent EventType.SDL_KEYUP Keycode.SDLK_RIGHT 0]).mVelX ∧
      ((Dot.new ⟨0, 0, 0⟩).handleEvents
        [keyboardEvent EventType.SDL_KEYDOWN Keycode.SDLK_RIGHT 0,
          keyboardEvent EventType.SDL_KEYDOWN Keycode.SDLK_UP 0,
          keyboardEvent EventType.SDL_KEYUP Keycode.SDLK_RIGHT 0]).mVelX ≤ Dot.DOT_VEL) ∧
    (-Dot.DOT_VEL ≤ ((Dot.new ⟨0, 0, 0⟩).handleEvents
        [keyboardEvent EventType.SDL_KEYDOWN Keycode.SDLK_RIGHT 0,
          keyboardEvent EventType.SDL_KEYDOWN Keycode.SDLK_UP 0,
          keyboardEvent EventType.SDL_KEYUP Keycode.SDLK_RIGHT 0]).mVelY ∧
      ((Dot.new ⟨0, 0, 0⟩).handleEvents
        [keyboardEvent EventType.SDL_KEYDOWN Keycode.SDLK_RIGHT 0,
          keyboardEvent EventType.SDL_KEYDOWN Keycode.SDLK_UP 0,
          keyboardEvent EventType.SDL_KEYUP Keycode.SDLK_RIGHT 0]).mVelY ≤ Dot.DOT_VEL)) :=
  ⟨by decide, Dot_velocity_bounded_of_alternating ⟨0, 0, 0⟩ _ (by decide)⟩

/-! ## The main loop -/

theorem foldl_invariant {α β γ : Type} (f : β → α → β) (p : β → γ)
    (h : ∀ b a, p (f b a) = p b) : ∀ (l : List α) (b : β), p (l.foldl f b) = p b := by
  intro l
  induction l with
  | nil => intro b; rfl
  | cons a l ih => intro b; rw [List.foldl_cons, ih, h]

theorem scanWindows_iff (gWindows : Fin TOTAL_WINDOWS → LWindow)
    (l : List (Fin TOTAL_WINDOWS)) :
    scanWindows gWindows l = true ↔ ∀ i ∈ l, (gWindows i).isShown = false := by
  induction l with
  | nil => simp [scanWindows]
  | cons i rest ih =>
    unfold scanWindows
    cases hshown : (gWindows i).isShown with
    | true => simp [hshown]
    | false => simp [hshown, ih]

theorem allWindowsClosed_iff (gWindows : Fin TOTAL_WINDOWS → LWindow) :
    allWindowsClosed gWindows = true ↔ ∀ i, (gWindows i).isShown = false := by
  unfold allWindowsClosed
  rw [scanWindows_iff]
  constructor
  · intro h i
    exact h i (List.mem_finRange i)
  · intro h i _
    exact h i

theorem handleEventAll_quit (gRenderer : Ptr) (e : SDL_Event) (s : MainState) :
    (handleEventAll gRenderer e s).quit = s.quit := by
  unfold handleEventAll
  apply foldl_invariant _ MainState.quit
  intro b a
  rfl

theorem pullUpWindow_quit (e : SDL_Event) (s : MainState) :
    (pullUpWindow e s).quit = s.quit := by
  unfold pullUpWindow
  split
  · split <;> rfl
  · rfl

theorem handlePolled_quit (gRenderer : Ptr) (s : MainState) (e : SDL_Event) :
    (handlePolled gRenderer s e).quit = (s.quit || decide (e.type = EventType.SDL_QUIT)) := by
  unfold handlePolled
  simp only [pullUpWindow_quit, handleEventAll_quit]
  by_cases h : e.type = EventType.SDL_QUIT
  · simp [h]
  · simp [h]

theorem pollEvents_quit (gRenderer : Ptr) (es : List SDL_Event) :
    ∀ s : MainState, (pollEvents gRenderer es s).quit =
      (s.quit || es.any (fun e => decide (e.type = EventType.SDL_QUIT))) := by
  unfold pollEvents
  induction es with
  | nil => intro s; simp
  | cons e es ih =>
    intro s
    have h := ih (handlePolled gRenderer s e)
    simp only [List.foldl_cons, List.any_cons] at h ⊢
    rw [h, handlePolled_quit, Bool.or_assoc]

theorem renderAll_quit (s : MainState) : (renderAll s).quit = s.quit := by
  unfold renderAll
  apply foldl_invariant _ MainState.quit
  intro b a
  rfl

theorem renderAll_gWindows (s : MainState) : (renderAll s).gWindows = s.gWindows := by
  unfold renderAll
  apply foldl_invariant _ MainState.gWindows
  intro b a
  rfl

/-- A call of `LWindow::init` that fails leaves `mShown` as it was. -/
theorem init_failed_mShown (w : LWindow) (createWindow createRenderer : Ptr)
    (windowID : Nat) (hfail : (w.init createWindow createRenderer windowID).2.1 = false) :
    (w.init createWindow createRenderer windowID).1.mShown = w.mShown := by
  unfold LWindow.init at hfail ⊢
  by_cases hw : createWindow = NULL
  · simp [hw]
  · by_cases hr : createRenderer = NULL
    · simp [hw, hr]
    · simp [hw, hr] at hfail

/-- C7: the all-windows-closed scan of the main loop.  For every state of the array of
`TOTAL_WINDOWS` windows the scan leaves `allWindowsClosed` true exactly when no window has
`isShown()` true; after one iteration of the outer loop, entered with `quit` false, the
quit flag is true exactly when an `SDL_QUIT` event was polled in that iteration or no
window is shown; and a window whose `init()` did not succeed keeps `mShown` false, so it
counts as closed. -/
theorem mainLoop_quit_iff (gRenderer : Ptr) (es : List SDL_Event) (s : MainState)
    (hquit : s.quit = false) :
    (∀ gWindows : Fin TOTAL_WINDOWS → LWindow,
      allWindowsClosed gWindows = true ↔ ∀ i, (gWindows i).isShown = false) ∧
    ((mainLoopIteration gRenderer es s).quit = true ↔
      ((∃ e ∈ es, e.type = EventType.SDL_QUIT) ∨
        ∀ i, ((mainLoopIteration gRenderer es s).gWindows i).isShown = false)) ∧
    LWindow.new.isShown = false ∧
    (∀ (w : LWindow) (createWindow createRenderer : Ptr) (windowID : Nat),
      w.isShown = false →
      (w.init createWindow createRenderer windowID).2.1 = false →
      (w.init createWindow createRenderer windowID).1.isShown = false) := by
  refine ⟨allWindowsClosed_iff, ?_, rfl, ?_⟩
  · have hq : (renderAll (pollEvents gRenderer es s)).quit =
        es.any (fun e => decide (e.type = EventType.SDL_QUIT)) := by
      rw [renderAll_quit, pollEvents_quit, hquit, Bool.false_or]
    have hany : es.any (fun e => decide (e.type = EventType.SDL_QUIT)) = true ↔
        ∃ e ∈ es, e.type = EventType.SDL_QUIT := by
      simp [List.any_eq_true]
    simp only [mainLoopIteration]
    cases hclosed : allWindowsClosed (renderAll (pollEvents gRenderer es s)).gWindows with
    | true =>
      simp only [if_true]
      have hall := (allWindowsClosed_iff _).mp hclosed
      exact ⟨fun _ => Or.inr hall, fun _ => trivial⟩
    | false =>
      simp only [Bool.false_eq_true, if_false]
      rw [hq, hany]
      constructor
      · intro h
        exact Or.inl h
      · rintro (h | h)
        · exact h
        · rw [(allWindowsClosed_iff _).mpr h] at hclosed
          exact absurd hclosed (by decide)
  · intro w cw cr id hshown hfail
    unfold LWindow.isShown at hshown ⊢
    rw [init_failed_mShown w cw cr id hfail]
    exact hshown

/-- Witness of C7: three shown windows, the first of which is hidden in the iteration. -/
theorem mainLoop_quit_iff_witness :
    (MainState.mk false (fun _ => { LWindow.new with mShown := true }) []).quit = false ∧
    (mainLoopIteration NULL [windowEvent 0 WindowEventID.SDL_WINDOWEVENT_HIDDEN 0 0]
      (MainState.mk false (fun _ => { LWindow.new with mShown := true }) [])).quit = true :=
  ⟨rfl,
    ((mainLoop_quit_iff NULL [windowEvent 0 WindowEventID.SDL_WINDOWEVENT_HIDDEN 0 0]
      (MainState.mk false (fun _ => { LWindow.new with mShown := true }) []) rfl).2.1).mpr
      (Or.inr (by decide))⟩

/-! ## The guards of the timer -/

theorem perform_stoppedClear (t : LTimer) (op : LTimerOp) (h : t.StoppedClear) :
    (t.perform op).StoppedClear := by
  unfold LTimer.StoppedClear at h ⊢
  cases op with
  | start ticks => intro hs; simp [LTimer.perform, LTimer.start] at hs
  | stop => intro _; simp [LTimer.perform, LTimer.stop]
  | pause ticks =>
    simp only [LTimer.perform, LTimer.pause]
    split
    · rename_i hg
      intro hs
      simp only [Bool.and_eq_true] at hg
      rw [hg.1] at hs
      exact absurd hs (by decide)
    · exact h
  | unpause ticks =>
    simp only [LTimer.perform, LTimer.unpause]
    split
    · rename_i hg
      intro hs
      simp only [Bool.and_eq_true] at hg
      rw [hg.1] at hs
      exact absurd hs (by decide)
    · exact h

theorem performAll_stoppedClear (ops : List LTimerOp) :
    ∀ t : LTimer, t.StoppedClear → (t.performAll ops).StoppedClear := by
  induction ops with
  | nil => intro t h; exact h
  | cons op ops ih =>
    intro t h
    exact ih (t.perform op) (perform_stoppedClear t op h)

theorem pause_eq_self_of_guard_false (t : LTimer) (ticks : Nat)
    (h : ¬ (t.mStarted = true ∧ t.mPaused = false)) : t.pause ticks = t := by
  unfold LTimer.pause
  split
  · rename_i hg
    simp only [Bool.and_eq_true, Bool.not_eq_true'] at hg
    exact absurd hg h
  · rfl

theorem unpause_eq_self_of_guard_false (t : LTimer) (ticks : Nat)
    (h : ¬ (t.mStarted = true ∧ t.mPaused = true)) : t.unpause ticks = t := by
  unfold LTimer.unpause
  split
  · rename_i hg
    simp only [Bool.and_eq_true] at hg
    exact absurd hg h
  · rfl

theorem pause_mPaused (t : LTimer) (ticks : Nat) :
    ¬ ((t.pause ticks).mStarted = true ∧ (t.pause ticks).mPaused = false) := by
  unfold LTimer.pause
  split
  · simp
  · rename_i hg
    simpa using hg

theorem unpause_mPaused (t : LTimer) (ticks : Nat) :
    ¬ ((t.unpause ticks).mStarted = true ∧ (t.unpause ticks).mPaused = true) := by
  unfold LTimer.unpause
  split
  · simp
  · rename_i hg
    simpa using hg

/-- C11: the guards of the timer.  In every timer state `pause()` changes the state only
if the timer is started and not paused, and `unpause()` only if it is started and paused;
a second consecutive `pause()` (or `unpause()`) is a no-op whatever the clock reads, so
the recorded paused ticks are not overwritten; and in every state reached from the
constructor by `start`, `stop`, `pause` and `unpause`, a timer that is not started has
`mPaused` false and `mStartTicks = mPausedTicks = 0`, `getTicks()` returns `0` and
`isPaused()` returns false. -/
theorem LTimer_guards (t : LTimer) (ticks ticks2 : Nat) (ops : List LTimerOp) :
    (t.pause ticks ≠ t → t.mStarted = true ∧ t.mPaused = false) ∧
    (t.unpause ticks ≠ t → t.mStarted = true ∧ t.mPaused = true) ∧
    (t.pause ticks).pause ticks2 = t.pause ticks ∧
    ((t.pause ticks).pause ticks2).mPausedTicks = (t.pause ticks).mPausedTicks ∧
    (t.unpause ticks).unpause ticks2 = t.unpause ticks ∧
    ((LTimer.new.performAll ops).isStarted = false →
      (LTimer.new.performAll ops).mPaused = false ∧
      (LTimer.new.performAll ops).mStartTicks = 0 ∧
      (LTimer.new.performAll ops).mPausedTicks = 0 ∧
      (LTimer.new.performAll ops).getTicks ticks = 0 ∧
      (LTimer.new.performAll ops).isPaused = false) := by
  have hpp := pause_eq_self_of_guard_false (t.pause ticks) ticks2 (pause_mPaused t ticks)
  refine ⟨?_, ?_, hpp, by rw [hpp], ?_, ?_⟩
  · intro hne
    by_contra hg
    exact hne (pause_eq_self_of_guard_false t ticks hg)
  · intro hne
    by_contra hg
    exact hne (unpause_eq_self_of_guard_false t ticks hg)
  · exact unpause_eq_self_of_guard_false (t.unpause ticks) ticks2 (unpause_mPaused t ticks)
  · intro hs
    have hinv : (LTimer.new.performAll ops).StoppedClear :=
      performAll_stoppedClear ops LTimer.new (fun _ => ⟨rfl, rfl, rfl⟩)
    unfold LTimer.isStarted at hs
    obtain ⟨h1, h2, h3⟩ := hinv hs
    refine ⟨h1, h2, h3, ?_, ?_⟩
    · simp [LTimer.getTicks, hs]
    · simp [LTimer.isPaused, hs]

/-- Witness of C11: a timer started at 100 and paused at 250 ignores a second pause at
900, and a timer that was started, paused and stopped reads zero. -/
theorem LTimer_guards_witness :
    (((LTimer.new.start 100).pause 250).pause 900).mPausedTicks = 150 ∧
    ((LTimer.new.performAll [LTimerOp.start 100, LTimerOp.pause 250, LTimerOp.stop,
        LTimerOp.unpause 300]).isStarted = false ∧
      (LTimer.new.performAll [LTimerOp.start 100, LTimerOp.pause 250, LTimerOp.stop,
        LTimerOp.unpause 300]).getTicks 900 = 0) :=
  ⟨((LTimer_guards (LTimer.new.start 100) 250 900 []).2.2.2.1).trans (by decide),
    by decide,
    ((LTimer_guards LTimer.new 900 0 [LTimerOp.start 100, LTimerOp.pause 250,
      LTimerOp.stop, LTimerOp.unpause 300]).2.2.2.2.2 (by decide)).2.2.2.1⟩

end MultiWindow

namespace EventDriven

/-! ## The order of the calls of the single window demo -/

/-- The event loop only appends calls of the loop stage and leaves the globals alone. -/
theorem eventLoop_shape (polls : List (Option EventType)) :
    ∀ (quit : Bool) (g : Globals), ∃ body : List SDLCall,
      (eventLoop polls quit g).1 = { g with trace := g.trace ++ body } ∧
      ∀ c ∈ body, stageOf c = some Stage.loop := by
  induction polls with
  | nil =>
    intro quit g
    exact ⟨[], by simp [eventLoop], by simp⟩
  | cons p rest ih =>
    intro quit g
    cases p with
    | some e =>
      obtain ⟨body, hbody, hstage⟩ := ih (if e = EventType.SDL_QUIT then true else quit)
        { g with trace := g.trace ++ [SDLCall.SDL_PollEvent] }
      refine ⟨SDLCall.SDL_PollEvent :: body, ?_, ?_⟩
      · simp only [eventLoop]
        rw [hbody]
        simp
      · intro c hc
        rcases List.mem_cons.mp hc with h | h
        · rw [h]; rfl
        · exact hstage c h
    | none =>
      cases quit with
      | true =>
        refine ⟨[SDLCall.SDL_PollEvent,
          SDLCall.SDL_BlitSurface g.gHelloWorld g.gScreenSurface,
          SDLCall.SDL_UpdateWindowSurface g.gWindow], ?_, ?_⟩
        · simp [eventLoop]
        · intro c hc
          simp only [List.mem_cons, List.mem_singleton, List.not_mem_nil, or_false] at hc
          rcases hc with h | h | h <;> rw [h] <;> rfl
      | false =>
        obtain ⟨body, hbody, hstage⟩ := ih false
          { g with trace := g.trace ++ [SDLCall.SDL_PollEvent,
            SDLCall.SDL_BlitSurface g.gHelloWorld g.gScreenSurface,
            SDLCall.SDL_UpdateWindowSurface g.gWindow] }
        refine ⟨[SDLCall.SDL_PollEvent,
          SDLCall.SDL_BlitSurface g.gHelloWorld g.gScreenSurface,
          SDLCall.SDL_UpdateWindowSurface g.gWindow] ++ body, ?_, ?_⟩
        · simp only [eventLoop]
          simp only [Bool.false_eq_true, if_false]
          rw [hbody]
          simp
        · intro c hc
          rcases List.mem_append.mp hc with h | h
          · simp only [List.mem_cons, List.mem_singleton, List.not_mem_nil, or_false] at h
            rcases h with h | h | h <;> rw [h] <;> rfl
          · exact hstage c h

/-- The ranks of the calls of a trace that belong to a stage. -/
theorem ranks_append (rank : Stage → Nat) (l1 l2 : List SDLCall) :
    ((l1 ++ l2).filterMap stageOf).map rank =
      (l1.filterMap stageOf).map rank ++ (l2.filterMap stageOf).map rank := by
  rw [List.filterMap_append, List.map_append]

theorem ranks_of_stage (rank : Stage → Nat) (st : Stage) (l : List SDLCall)
    (h : ∀ c ∈ l, stageOf c = some st ∨ stageOf c = none) :
    ∀ r ∈ (l.filterMap stageOf).map rank, r = rank st := by
  intro r hr
  obtain ⟨t, ht, rfl⟩ := List.mem_map.mp hr
  obtain ⟨c, hc, hct⟩ := List.mem_filterMap.mp ht
  rcases h c hc with h1 | h1
  · rw [h1] at hct
    rw [← Option.some.inj hct]
  · rw [h1] at hct
    exact absurd hct (by simp)

theorem pairwise_le_of_const {l : List Nat} {k : Nat} (h : ∀ r ∈ l, r = k) :
    l.Pairwise (fun a b => a ≤ b) :=
  List.pairwise_of_forall_mem_list (fun a ha b hb => by rw [h a ha, h b hb])

/-- A trace made of the load call, then calls of the initialise stage, then calls of the
loop stage, then calls of the free stage is in the order load, initialise, loop, free. -/
theorem inStageOrder_of_shape (file : String) (a body c : List SDLCall)
    (ha : ∀ x ∈ a, stageOf x = some Stage.initialise ∨ stageOf x = none)
    (hb : ∀ x ∈ body, stageOf x = some Stage.loop)
    (hc : ∀ x ∈ c, stageOf x = some Stage.free) :
    InStageOrder loadFirstRank (SDLCall.SDL_LoadBMP file :: (a ++ body ++ c)) := by
  have ra := ranks_of_stage loadFirstRank Stage.initialise a ha
  have rb := ranks_of_stage loadFirstRank Stage.loop body (fun x hx => Or.inl (hb x hx))
  have rc := ranks_of_stage loadFirstRank Stage.free c (fun x hx => Or.inl (hc x hx))
  unfold InStageOrder
  rw [show SDLCall.SDL_LoadBMP file :: (a ++ body ++ c) =
    [SDLCall.SDL_LoadBMP file] ++ (a ++ (body ++ c)) by simp]
  rw [ranks_append, ranks_append, ranks_append]
  simp only [loadFirstRank] at ra rb rc
  refine List.pairwise_append.mpr ⟨by simp [stageOf], ?_, ?_⟩
  · refine List.pairwise_append.mpr ⟨pairwise_le_of_const ra, ?_, ?_⟩
    · refine List.pairwise_append.mpr ⟨pairwise_le_of_const rb, pairwise_le_of_const rc, ?_⟩
      intro x hx y hy
      rw [rb x hx, rc y hy]
      decide
    · intro x hx y hy
      rw [ra x hx]
      rcases List.mem_append.mp hy with h | h
      · rw [rb y h]; decide
      · rw [rc y h]; decide
  · intro x hx y _
    simp only [List.filterMap_cons, stageOf, List.filterMap_nil, List.map_cons,
      List.map_nil, List.mem_singleton, loadFirstRank] at hx
    rw [hx]
    exact Nat.zero_le y

theorem loadMedia_trace (env : Env) :
    ∃ tl : List SDLCall,
      (loadMedia env initialGlobals).1.trace = SDLCall.SDL_LoadBMP "died_splash.bmp" :: tl ∧
      ∀ x ∈ tl, stageOf x = none := by
  unfold loadMedia initialGlobals
  by_cases h : env.loadBMP = NULL
  · refine ⟨[SDLCall.SDL_GetError], by simp [h], ?_⟩
    intro x hx
    rw [List.mem_singleton.mp hx]
    rfl
  · exact ⟨[], by simp [h], by simp⟩

theorem init_trace (env : Env) (g : Globals) :
    ∃ ti : List SDLCall,
      (init env g).1.trace = g.trace ++ ti ∧ SDLCall.SDL_Init ∈ ti ∧
      ∀ x ∈ ti, stageOf x = some Stage.initialise ∨ stageOf x = none := by
  unfold init
  by_cases h1 : env.sdlInit < 0
  · refine ⟨[SDLCall.SDL_Init, SDLCall.SDL_GetError], by simp [h1], by simp, ?_⟩
    intro x hx
    simp only [List.mem_cons, List.mem_singleton, List.not_mem_nil, or_false] at hx
    rcases hx with h | h <;> rw [h] <;> simp [stageOf]
  · by_cases h2 : env.createWindow = NULL
    · refine ⟨[SDLCall.SDL_Init, SDLCall.SDL_CreateWindow], by simp [h1, h2], by simp, ?_⟩
      intro x hx
      simp only [List.mem_cons, List.mem_singleton, List.not_mem_nil, or_false] at hx
      rcases hx with h | h <;> rw [h] <;> simp [stageOf]
    · refine ⟨[SDLCall.SDL_Init, SDLCall.SDL_CreateWindow,
        SDLCall.SDL_GetWindowSurface env.createWindow], by simp [h1, h2], by simp, ?_⟩
      intro x hx
      simp only [List.mem_cons, List.mem_singleton, List.not_mem_nil, or_false] at hx
      rcases hx with h | h | h <;> rw [h] <;> simp [stageOf]

theorem close_trace (g : Globals) :
    (close g).trace = g.trace ++ [SDLCall.SDL_FreeSurface g.gHelloWorld,
      SDLCall.SDL_DestroyWindow g.gWindow, SDLCall.SDL_Quit] := rfl

theorem close_calls_stage (surface window : Ptr) :
    ∀ x ∈ [SDLCall.SDL_FreeSurface surface, SDLCall.SDL_DestroyWindow window,
      SDLCall.SDL_Quit], stageOf x = some Stage.free := by
  intro x hx
  simp only [List.mem_cons, List.mem_singleton, List.not_mem_nil, or_false] at hx
  rcases hx with h | h | h <;> rw [h] <;> rfl

/-- The shape of every run: the load call, the calls of `init` (with the `SDL_GetError`
calls), the calls of the event loop, present only when `init` succeeded, and the calls of
`close`, present exactly when the program returns. -/
theorem wmain_shape (env : Env) :
    ∃ a body c : List SDLCall,
      (wmain env).1.trace = SDLCall.SDL_LoadBMP "died_splash.bmp" :: (a ++ body ++ c) ∧
      SDLCall.SDL_Init ∈ a ∧
      (∀ x ∈ a, stageOf x = some Stage.initialise ∨ stageOf x = none) ∧
      (∀ x ∈ body, stageOf x = some Stage.loop) ∧
      (body ≠ [] → (init env (loadMedia env initialGlobals).1).2 = true) ∧
      (∀ x ∈ c, stageOf x = some Stage.free) ∧
      ((wmain env).2 = true → ∃ surface window : Ptr,
        c = [SDLCall.SDL_FreeSurface surface, SDLCall.SDL_DestroyWindow window,
          SDLCall.SDL_Quit]) := by
  obtain ⟨tl, htl, hnone⟩ := loadMedia_trace env
  obtain ⟨ti, hti, hinit, hstage⟩ := init_trace env (loadMedia env initialGlobals).1
  have ha : ∀ x ∈ tl ++ ti, stageOf x = some Stage.initialise ∨ stageOf x = none := by
    intro x hx
    rcases List.mem_append.mp hx with h | h
    · exact Or.inr (hnone x h)
    · exact hstage x h
  have hmem : SDLCall.SDL_Init ∈ tl ++ ti := List.mem_append.mpr (Or.inr hinit)
  rw [htl] at hti
  simp only [wmain]
  cases hok : (init env (loadMedia env initialGlobals).1).2 with
  | false =>
    refine ⟨tl ++ ti, [],
      [SDLCall.SDL_FreeSurface (init env (loadMedia env initialGlobals).1).1.gHelloWorld,
        SDLCall.SDL_DestroyWindow (init env (loadMedia env initialGlobals).1).1.gWindow,
        SDLCall.SDL_Quit], ?_, hmem, ha, by simp, by simp, close_calls_stage _ _,
      fun _ => ⟨_, _, rfl⟩⟩
    simp only [Bool.not_false, if_true]
    rw [close_trace, hti]
    simp
  | true =>
    obtain ⟨body, hbody, hloop⟩ := eventLoop_shape env.polls false
      (init env (loadMedia env initialGlobals).1).1
    simp only [Bool.not_true, Bool.false_eq_true, if_false]
    cases hfin : (eventLoop env.polls false (init env (loadMedia env initialGlobals).1).1).2 with
    | true =>
      refine ⟨tl ++ ti, body,
        [SDLCall.SDL_FreeSurface (init env (loadMedia env initialGlobals).1).1.gHelloWorld,
          SDLCall.SDL_DestroyWindow (init env (loadMedia env initialGlobals).1).1.gWindow,
          SDLCall.SDL_Quit], ?_, hmem, ha, hloop, by simp, close_calls_stage _ _,
        fun _ => ⟨_, _, rfl⟩⟩
      simp only [if_true]
      rw [close_trace, hbody]
      simp only [hti]
      simp
    | false =>
      refine ⟨tl ++ ti, body, [], ?_, hmem, ha, hloop, by simp, by simp, ?_⟩
      · simp only [Bool.false_eq_true, if_false]
        rw [hbody]
        simp only [hti]
        simp
      · intro h
        simp only [Bool.false_eq_true, if_false] at h
        rw [hfin] at h
        exact absurd h (by decide)

/-- Once `quit` is set the loop ends at the next empty queue. -/
theorem eventLoop_ends_of_quit (polls : List (Option EventType)) :
    ∀ g : Globals, none ∈ polls → (eventLoop polls true g).2 = true := by
  induction polls with
  | nil => intro g h; exact absurd h (by simp)
  | cons p rest ih =>
    intro g h
    cases p with
    | none => simp [eventLoop]
    | some e =>
      have hrest : none ∈ rest := by
        rcases List.mem_cons.mp h with h1 | h1
        · exact absurd h1 (by simp)
        · exact h1
      simp only [eventLoop]
      have := ih { g with trace := g.trace ++ [SDLCall.SDL_PollEvent] } hrest
      simpa using this

/-- The loop ends when an `SDL_QUIT` event is polled and the queue is empty later on. -/
theorem eventLoop_ends (before rest : List (Option EventType)) (hnone : none ∈ rest) :
    ∀ (quit : Bool) (g : Globals),
      (eventLoop (before ++ some EventType.SDL_QUIT :: rest) quit g).2 = true := by
  induction before with
  | nil =>
    intro quit g
    simp only [List.nil_append, eventLoop, if_true]
    exact eventLoop_ends_of_quit rest _ hnone
  | cons p before ih =>
    intro quit g
    cases p with
    | some e =>
      simp only [List.cons_append, eventLoop]
      exact ih _ _
    | none =>
      cases quit with
      | true => simp [eventLoop]
      | false =>
        simp only [List.cons_append, eventLoop, Bool.false_eq_true, if_false]
        exact ih _ _

/-- Counterexample for C8: in the run where every call succeeds and the user quits at
once, `SDL_LoadBMP` is called before `SDL_Init`, so the trace is not in the order
initialise, load, loop, free. -/
theorem wmain_trace_not_in_spec_order :
    (wmain quitAtOnce).1.trace =
      [SDLCall.SDL_LoadBMP "died_splash.bmp", SDLCall.SDL_Init, SDLCall.SDL_CreateWindow,
        SDLCall.SDL_GetWindowSurface 1, SDLCall.SDL_PollEvent, SDLCall.SDL_PollEvent,
        SDLCall.SDL_BlitSurface 3 2, SDLCall.SDL_UpdateWindowSurface 1,
        SDLCall.SDL_FreeSurface 3, SDLCall.SDL_DestroyWindow 1, SDLCall.SDL_Quit] ∧
    ¬ InStageOrder specRank (wmain quitAtOnce).1.trace := by
  decide

/-- On every run the calls are made in the order of the stages load, initialise, loop,
free.  `SDL_LoadBMP` is the first call and `SDL_Init` is called on every run after it; a
call of the event loop (poll, blit, update) is made only when `init()` succeeded; when
`init()` failed, or when an `SDL_QUIT` event is polled and the queue is empty later on, the
program returns; and when the program returns the calls of `close()` are the last ones. -/
theorem wmain_stage_order (env : Env) :
    InStageOrder loadFirstRank (wmain env).1.trace ∧
    (wmain env).1.trace.head? = some (SDLCall.SDL_LoadBMP "died_splash.bmp") ∧
    SDLCall.SDL_Init ∈ (wmain env).1.trace ∧
    ((∃ x ∈ (wmain env).1.trace, stageOf x = some Stage.loop) →
      (init env (loadMedia env initialGlobals).1).2 = true) ∧
    ((init env (loadMedia env initialGlobals).1).2 = false → (wmain env).2 = true) ∧
    (∀ before rest : List (Option EventType),
      env.polls = before ++ some EventType.SDL_QUIT :: rest → none ∈ rest →
      (wmain env).2 = true) ∧
    ((wmain env).2 = true → ∃ surface window : Ptr,
      [SDLCall.SDL_FreeSurface surface, SDLCall.SDL_DestroyWindow window,
        SDLCall.SDL_Quit] <:+ (wmain env).1.trace) := by
  obtain ⟨a, body, c, htrace, hinit, ha, hb, hbody, hc, hclose⟩ := wmain_shape env
  refine ⟨?_, ?_, ?_, ?_, ?_, ?_, ?_⟩
  · rw [htrace]
    exact inStageOrder_of_shape _ a body c ha hb hc
  · rw [htrace]
    rfl
  · rw [htrace]
    simp [hinit]
  · rintro ⟨x, hx, hstage⟩
    apply hbody
    rw [htrace] at hx
    rcases List.mem_cons.mp hx with h | h
    · rw [h] at hstage
      exact absurd hstage (by simp [stageOf])
    · rcases List.mem_append.mp h with h | h
      · rcases List.mem_append.mp h with h | h
        · rcases ha x h with h1 | h1
          · rw [h1] at hstage
            exact absurd hstage (by simp)
          · rw [h1] at hstage
            exact absurd hstage (by simp)
        · exact List.ne_nil_of_mem h
      · rw [hc x h] at hstage
        exact absurd hstage (by simp)
  · intro hfail
    simp [wmain, hfail]
  · intro before rest hpolls hnone
    simp only [wmain]
    cases hok : (init env (loadMedia env initialGlobals).1).2 with
    | false => simp
    | true =>
      have hend := eventLoop_ends before rest hnone false
        (init env (loadMedia env initialGlobals).1).1
      rw [← hpolls] at hend
      simp [hend]
  · intro hret
    obtain ⟨surface, window, hcalls⟩ := hclose hret
    refine ⟨surface, window, ?_⟩
    rw [htrace, ← hcalls]
    exact ⟨SDLCall.SDL_LoadBMP "died_splash.bmp" :: (a ++ body), by simp⟩

/-! ## The order of the single calls -/

theorem callRank_of_stage_none (x : SDLCall) (h : stageOf x = none) : callRank x = none := by
  cases x <;> first | rfl | simp [stageOf] at h

theorem callRank_of_stage_loop (x : SDLCall) (h : stageOf x = some Stage.loop) :
    callRank x = some 4 := by
  cases x <;> first | rfl | simp [stageOf] at h

theorem callRanks_of_stage_none (l : List SDLCall) (h : ∀ x ∈ l, stageOf x = none) :
    l.filterMap callRank = [] := by
  rw [List.filterMap_eq_nil_iff]
  intro x hx
  exact callRank_of_stage_none x (h x hx)

theorem callRanks_of_stage_loop (l : List SDLCall)
    (h : ∀ x ∈ l, stageOf x = some Stage.loop) : ∀ r ∈ l.filterMap callRank, r = 4 := by
  intro r hr
  obtain ⟨x, hx, hxr⟩ := List.mem_filterMap.mp hr
  rw [callRank_of_stage_loop x (h x hx)] at hxr
  exact (Option.some.inj hxr).symm

theorem pairwise_le_append {l1 l2 : List Nat} (k : Nat)
    (h1 : l1.Pairwise (fun a b => a ≤ b)) (h2 : l2.Pairwise (fun a b => a ≤ b))
    (hk1 : ∀ r ∈ l1, r ≤ k) (hk2 : ∀ r ∈ l2, k ≤ r) :
    (l1 ++ l2).Pairwise (fun a b => a ≤ b) :=
  List.pairwise_append.mpr ⟨h1, h2, fun a ha b hb => le_trans (hk1 a ha) (hk2 b hb)⟩

/-- The calls of `init`: `SDL_Init` first, then `SDL_CreateWindow` exactly when `SDL_Init`
succeeded, then `SDL_GetWindowSurface` exactly when the window was created. -/
theorem init_calls (env : Env) (g : Globals) :
    ∃ ti : List SDLCall, (init env g).1.trace = g.trace ++ ti ∧
      ((ti = [SDLCall.SDL_Init, SDLCall.SDL_GetError] ∧ env.sdlInit < 0 ∧
          (init env g).2 = false) ∨
        (ti = [SDLCall.SDL_Init, SDLCall.SDL_CreateWindow] ∧ ¬ env.sdlInit < 0 ∧
          (init env g).2 = false) ∨
        (ti = [SDLCall.SDL_Init, SDLCall.SDL_CreateWindow,
            SDLCall.SDL_GetWindowSurface env.createWindow] ∧ ¬ env.sdlInit < 0 ∧
          (init env g).2 = true ∧ (init env g).1.gWindow = env.createWindow ∧
          (init env g).1.gScreenSurface = env.getWindowSurface ∧
          (init env g).1.gHelloWorld = g.gHelloWorld)) := by
  unfold init
  by_cases h1 : env.sdlInit < 0
  · exact ⟨[SDLCall.SDL_Init, SDLCall.SDL_GetError], by simp [h1], Or.inl ⟨rfl, h1, by simp [h1]⟩⟩
  · by_cases h2 : env.createWindow = NULL
    · exact ⟨[SDLCall.SDL_Init, SDLCall.SDL_CreateWindow], by simp [h1, h2],
        Or.inr (Or.inl ⟨rfl, h1, by simp [h1, h2]⟩)⟩
    · exact ⟨[SDLCall.SDL_Init, SDLCall.SDL_CreateWindow,
        SDLCall.SDL_GetWindowSurface env.createWindow], by simp [h1, h2],
        Or.inr (Or.inr ⟨rfl, h1, by simp [h1, h2], by simp [h1, h2], by simp [h1, h2],
          by simp [h1, h2]⟩)⟩

theorem loadMedia_gHelloWorld (env : Env) (g : Globals) :
    (loadMedia env g).1.gHelloWorld = env.loadBMP := by
  unfold loadMedia
  by_cases h : env.loadBMP = NULL
  · simp [h]
  · simp [h]

/-- When the queue is found empty, the image is blitted and the surface updated. -/
theorem eventLoop_blits (polls : List (Option EventType)) :
    ∀ (quit : Bool) (g : Globals), none ∈ polls →
      SDLCall.SDL_BlitSurface g.gHelloWorld g.gScreenSurface ∈
          (eventLoop polls quit g).1.trace ∧
        SDLCall.SDL_UpdateWindowSurface g.gWindow ∈ (eventLoop polls quit g).1.trace := by
  induction polls with
  | nil => intro quit g h; exact absurd h (by simp)
  | cons p rest ih =>
    intro quit g h
    cases p with
    | some e =>
      have hrest : none ∈ rest := by
        rcases List.mem_cons.mp h with h1 | h1
        · exact absurd h1 (by simp)
        · exact h1
      simp only [eventLoop]
      exact ih _ { g with trace := g.trace ++ [SDLCall.SDL_PollEvent] } hrest
    | none =>
      cases quit with
      | true => simp [eventLoop]
      | false =>
        obtain ⟨body, hbody, _⟩ := eventLoop_shape rest false
          { g with trace := g.trace ++ [SDLCall.SDL_PollEvent,
            SDLCall.SDL_BlitSurface g.gHelloWorld g.gScreenSurface,
            SDLCall.SDL_UpdateWindowSurface g.gWindow] }
        simp only [eventLoop, Bool.false_eq_true, if_false]
        rw [hbody]
        simp

/-- The calls of every run, one by one: `SDL_LoadBMP`, an `SDL_GetError` when loading
failed, the calls of `init`, the calls of the event loop and the calls of `close`. -/
theorem wmain_calls (env : Env) :
    ∃ tl ti body c : List SDLCall,
      (wmain env).1.trace =
        SDLCall.SDL_LoadBMP "died_splash.bmp" :: (tl ++ ti ++ body ++ c) ∧
      (∀ x ∈ tl, stageOf x = none) ∧
      ((ti = [SDLCall.SDL_Init, SDLCall.SDL_GetError] ∧ env.sdlInit < 0) ∨
        (ti = [SDLCall.SDL_Init, SDLCall.SDL_CreateWindow] ∧ ¬ env.sdlInit < 0) ∨
        (ti = [SDLCall.SDL_Init, SDLCall.SDL_CreateWindow,
            SDLCall.SDL_GetWindowSurface env.createWindow] ∧ ¬ env.sdlInit < 0)) ∧
      (∀ x ∈ body, stageOf x = some Stage.loop) ∧
      (c = [] ∨ ∃ surface window : Ptr,
        c = [SDLCall.SDL_FreeSurface surface, SDLCall.SDL_DestroyWindow window,
          SDLCall.SDL_Quit]) := by
  obtain ⟨tl, htl, hnone⟩ := loadMedia_trace env
  obtain ⟨ti, hti, hcases⟩ := init_calls env (loadMedia env initialGlobals).1
  have hti2 : ti = [SDLCall.SDL_Init, SDLCall.SDL_GetError] ∧ env.sdlInit < 0 ∨
      ti = [SDLCall.SDL_Init, SDLCall.SDL_CreateWindow] ∧ ¬ env.sdlInit < 0 ∨
      ti = [SDLCall.SDL_Init, SDLCall.SDL_CreateWindow,
        SDLCall.SDL_GetWindowSurface env.createWindow] ∧ ¬ env.sdlInit < 0 := by
    rcases hcases with h | h | h
    · exact Or.inl ⟨h.1, h.2.1⟩
    · exact Or.inr (Or.inl ⟨h.1, h.2.1⟩)
    · exact Or.inr (Or.inr ⟨h.1, h.2.1⟩)
  rw [htl] at hti
  simp only [wmain]
  cases hok : (init env (loadMedia env initialGlobals).1).2 with
  | false =>
    refine ⟨tl, ti, [],
      [SDLCall.SDL_FreeSurface (init env (loadMedia env initialGlobals).1).1.gHelloWorld,
        SDLCall.SDL_DestroyWindow (init env (loadMedia env initialGlobals).1).1.gWindow,
        SDLCall.SDL_Quit], ?_, hnone, hti2, by simp, Or.inr ⟨_, _, rfl⟩⟩
    simp only [Bool.not_false, if_true]
    rw [close_trace, hti]
    simp
  | true =>
    obtain ⟨body, hbody, hloop⟩ := eventLoop_shape env.polls false
      (init env (loadMedia env initialGlobals).1).1
    simp only [Bool.not_true, Bool.false_eq_true, if_false]
    cases hfin : (eventLoop env.polls false (init env (loadMedia env initialGlobals).1).1).2 with
    | true =>
      refine ⟨tl, ti, body,
        [SDLCall.SDL_FreeSurface (init env (loadMedia env initialGlobals).1).1.gHelloWorld,
          SDLCall.SDL_DestroyWindow (init env (loadMedia env initialGlobals).1).1.gWindow,
          SDLCall.SDL_Quit], ?_, hnone, hti2, hloop, Or.inr ⟨_, _, rfl⟩⟩
      simp only [if_true]
      rw [close_trace, hbody]
      simp only [hti]
      simp
    | false =>
      refine ⟨tl, ti, body, [], ?_, hnone, hti2, hloop, Or.inl rfl⟩
      simp only [Bool.false_eq_true, if_false]
      rw [hbody]
      simp only [hti]
      simp

/-- A trace of the shape of `wmain_calls` is in the order of `callRank`. -/
theorem inCallOrder_of_calls (file : String) (window : Ptr) (tl ti body c : List SDLCall)
    (htl : ∀ x ∈ tl, stageOf x = none)
    (hti : ti = [SDLCall.SDL_Init, SDLCall.SDL_GetError] ∨
      ti = [SDLCall.SDL_Init, SDLCall.SDL_CreateWindow] ∨
      ti = [SDLCall.SDL_Init, SDLCall.SDL_CreateWindow,
        SDLCall.SDL_GetWindowSurface window])
    (hbody : ∀ x ∈ body, stageOf x = some Stage.loop)
    (hc : c = [] ∨ ∃ surface win : Ptr,
      c = [SDLCall.SDL_FreeSurface surface, SDLCall.SDL_DestroyWindow win,
        SDLCall.SDL_Quit]) :
    InCallOrder (SDLCall.SDL_LoadBMP file :: (tl ++ ti ++ body ++ c)) := by
  unfold InCallOrder
  have hrtl := callRanks_of_stage_none tl htl
  have hrb := callRanks_of_stage_loop body hbody
  have hrti : (ti.filterMap callRank).Pairwise (fun a b => a ≤ b) ∧
      (∀ r ∈ ti.filterMap callRank, 1 ≤ r) ∧ (∀ r ∈ ti.filterMap callRank, r ≤ 3) := by
    rcases hti with h | h | h <;> subst h <;> simp [callRank]
  have hrc : (c.filterMap callRank).Pairwise (fun a b => a ≤ b) ∧
      (∀ r ∈ c.filterMap callRank, 5 ≤ r) := by
    rcases hc with h | ⟨surface, win, h⟩ <;> subst h <;> simp [callRank]
  rw [show SDLCall.SDL_LoadBMP file :: (tl ++ ti ++ body ++ c) =
    [SDLCall.SDL_LoadBMP file] ++ (tl ++ (ti ++ (body ++ c))) by simp]
  simp only [List.filterMap_append, hrtl, List.nil_append]
  refine pairwise_le_append 1 (by simp [callRank]) ?_ (by simp [callRank]) ?_
  rotate_left
  · intro r hr
    rcases List.mem_append.mp hr with h | h
    · exact hrti.2.1 r h
    · rcases List.mem_append.mp h with h | h
      · exact le_trans (by decide) (le_of_eq (hrb r h).symm)
      · exact le_trans (by decide) (hrc.2 r h)
  · refine pairwise_le_append 4 hrti.1 ?_ (fun r hr => le_trans (hrti.2.2 r hr) (by decide)) ?_
    · exact pairwise_le_append 4 (pairwise_le_of_const hrb) hrc.1
        (fun r hr => le_of_eq (hrb r hr))
        (fun r hr => le_trans (by decide) (hrc.2 r hr))
    · intro r hr
      rcases List.mem_append.mp hr with h | h
      · exact le_of_eq (hrb r h).symm
      · exact le_trans (by decide) (hrc.2 r h)

/-- When `init()` succeeded and the queue is found empty at least once, the loaded image
is blitted to the window surface and the window updated. -/
theorem wmain_blits (env : Env) (hok : (init env (loadMedia env initialGlobals).1).2 = true)
    (hnone : none ∈ env.polls) :
    SDLCall.SDL_BlitSurface env.loadBMP env.getWindowSurface ∈ (wmain env).1.trace ∧
      SDLCall.SDL_UpdateWindowSurface env.createWindow ∈ (wmain env).1.trace := by
  obtain ⟨ti, _, hcases⟩ := init_calls env (loadMedia env initialGlobals).1
  have hglobals : (init env (loadMedia env initialGlobals).1).1.gWindow = env.createWindow ∧
      (init env (loadMedia env initialGlobals).1).1.gScreenSurface = env.getWindowSurface ∧
      (init env (loadMedia env initialGlobals).1).1.gHelloWorld = env.loadBMP := by
    rcases hcases with h | h | h
    · rw [h.2.2] at hok; exact absurd hok (by decide)
    · rw [h.2.2] at hok; exact absurd hok (by decide)
    · exact ⟨h.2.2.2.1, h.2.2.2.2.1, h.2.2.2.2.2.trans (loadMedia_gHelloWorld env _)⟩
  have hblit := eventLoop_blits env.polls false
    (init env (loadMedia env initialGlobals).1).1 hnone
  rw [hglobals.1, hglobals.2.1, hglobals.2.2] at hblit
  simp only [wmain, hok, Bool.not_true, Bool.false_eq_true, if_false]
  cases hfin : (eventLoop env.polls false (init env (loadMedia env initialGlobals).1).1).2 with
  | true =>
    simp only [if_true, close_trace]
    exact ⟨List.mem_append_left _ hblit.1, List.mem_append_left _ hblit.2⟩
  | false =>
    simp only [Bool.false_eq_true, if_false]
    exact hblit

/-- C8, amended: on every run the calls are made in the order `SDL_LoadBMP` (load), then
`SDL_Init`, then `SDL_CreateWindow`, then `SDL_GetWindowSurface` (initialise), then the
calls of the event loop (poll, blit, update), then `SDL_FreeSurface`, `SDL_DestroyWindow`,
`SDL_Quit` (free).  `SDL_LoadBMP` is the first call; `SDL_Init` is called on every run and
`SDL_CreateWindow` exactly when `SDL_Init` succeeded; a call of the event loop is made
only when `init()` succeeded, and then the loaded image is blitted to the window surface
and the window updated whenever the queue is found empty; when `init()` failed, or when an
`SDL_QUIT` event is polled and the queue is empty later on, the program returns; and when
the program returns the calls of `close()` are the last ones. -/
theorem wmain_load_init_loop_free (env : Env) :
    InCallOrder (wmain env).1.trace ∧
    InStageOrder loadFirstRank (wmain env).1.trace ∧
    (wmain env).1.trace.head? = some (SDLCall.SDL_LoadBMP "died_splash.bmp") ∧
    SDLCall.SDL_Init ∈ (wmain env).1.trace ∧
    (SDLCall.SDL_CreateWindow ∈ (wmain env).1.trace ↔ ¬ env.sdlInit < 0) ∧
    ((∃ x ∈ (wmain env).1.trace, stageOf x = some Stage.loop) →
      (init env (loadMedia env initialGlobals).1).2 = true) ∧
    ((init env (loadMedia env initialGlobals).1).2 = true → none ∈ env.polls →
      SDLCall.SDL_BlitSurface env.loadBMP env.getWindowSurface ∈ (wmain env).1.trace ∧
        SDLCall.SDL_UpdateWindowSurface env.createWindow ∈ (wmain env).1.trace) ∧
    ((init env (loadMedia env initialGlobals).1).2 = false → (wmain env).2 = true) ∧
    (∀ before rest : List (Option EventType),
      env.polls = before ++ some EventType.SDL_QUIT :: rest → none ∈ rest →
      (wmain env).2 = true) ∧
    ((wmain env).2 = true → ∃ surface window : Ptr,
      [SDLCall.SDL_FreeSurface surface, SDLCall.SDL_DestroyWindow window,
        SDLCall.SDL_Quit] <:+ (wmain env).1.trace) := by
  obtain ⟨hstage, hhead, hinit, hloop, hfail, hquit, hclose⟩ := wmain_stage_order env
  obtain ⟨tl, ti, body, c, htrace, htl, hti, hbody, hc⟩ := wmain_calls env
  refine ⟨?_, hstage, hhead, hinit, ?_, hloop, wmain_blits env, hfail, hquit, hclose⟩
  · rw [htrace]
    refine inCallOrder_of_calls _ env.createWindow tl ti body c htl ?_ hbody hc
    rcases hti with h | h | h
    · exact Or.inl h.1
    · exact Or.inr (Or.inl h.1)
    · exact Or.inr (Or.inr h.1)
  · rw [htrace]
    have h1 : SDLCall.SDL_CreateWindow ∉ tl := fun h => by
      have := htl _ h
      simp [stageOf] at this
    have h2 : SDLCall.SDL_CreateWindow ∉ body := fun h => by
      have := hbody _ h
      simp [stageOf] at this
    have h3 : SDLCall.SDL_CreateWindow ∉ c := by
      rcases hc with h | ⟨surface, window, h⟩ <;> subst h <;> simp
    rcases hti with h | h | h
    · obtain ⟨hlist, hneg⟩ := h
      subst hlist
      simp [h1, h2, h3, hneg]
    · obtain ⟨hlist, hpos⟩ := h
      subst hlist
      simp [hpos]
    · obtain ⟨hlist, hpos⟩ := h
      subst hlist
      simp [hpos]

/-- Witness of C8, amended: the run where every call succeeds and the user quits at once
returns, with its calls in the order load, `SDL_Init`, `SDL_CreateWindow`, loop, free. -/
theorem wmain_load_init_loop_free_witness :
    (quitAtOnce.polls = [] ++ some EventType.SDL_QUIT :: [none] ∧ none ∈ quitAtOnce.polls ∧
      (init quitAtOnce (loadMedia quitAtOnce initialGlobals).1).2 = true) ∧
    InCallOrder (wmain quitAtOnce).1.trace ∧
    (SDLCall.SDL_BlitSurface 3 2 ∈ (wmain quitAtOnce).1.trace ∧
      SDLCall.SDL_UpdateWindowSurface 1 ∈ (wmain quitAtOnce).1.trace) ∧
    (wmain quitAtOnce).2 = true :=
  ⟨⟨rfl, by decide, by decide⟩, (wmain_load_init_loop_free quitAtOnce).1,
    (wmain_load_init_loop_free quitAtOnce).2.2.2.2.2.2.1 (by decide) (by decide),
    (wmain_load_init_loop_free quitAtOnce).2.2.2.2.2.2.2.2.1 [] [none] rfl (by simp)⟩

end EventDriven
